import Mathlib

/-!
Shallow embedding of `outline_cli.py` (huangsen365/outline-cli), a small CLI
that manages Outline VPN access keys and stores connection credentials in a
per-user `config.ini` with one section per profile.

The config file is modelled at the level configparser presents it: an ordered
association list of sections, each section an ordered association list of
option keys to string values.  configparser stores sections and options in
dictionaries, so section names and option keys are unique; updates are
modelled as updating every matching entry (equivalent on the unique-key
configs the dictionaries guarantee) and section removal removes every entry
with the given name.  Python truthiness of strings and of `None` is modelled
explicitly (`pyTruthy`, `pyOr`).
-/

set_option autoImplicit false

/-- One configparser section body: option key to value, in insertion order. -/
abbrev OptionList := List (String × String)

/-- A parsed config file: section name to section body, in insertion order. -/
abbrev Config := List (String × OptionList)

/-- Value of option `k` in a section body (first matching entry). -/
def lookupOpt (opts : OptionList) (k : String) : Option String :=
  (opts.find? (fun e => e.1 == k)).map (fun e => e.2)

/-- Model of `config.set`: replace the value of `k` if present, else append `(k, v)`. -/
def setOption (opts : OptionList) (k v : String) : OptionList :=
  if opts.any (fun e => e.1 == k) then
    opts.map (fun e => if e.1 == k then (e.1, v) else e)
  else
    opts ++ [(k, v)]

/-- Model of `config.sections()`: the list of section names. -/
def sections (cfg : Config) : List String :=
  cfg.map (fun s => s.1)

/-- The section named `p`, if any (first matching entry). -/
def getSection (cfg : Config) (p : String) : Option (String × OptionList) :=
  cfg.find? (fun s => s.1 == p)

/-- Update option `k` of section `p` to `v` (sections of other names kept). -/
def setSection (cfg : Config) (p k v : String) : Config :=
  cfg.map (fun s => if s.1 == p then (s.1, setOption s.2 k v) else s)

/-- Model of `config.get(p, k, fallback=None)` for the configs this CLI writes. -/
def getOption (cfg : Config) (p k : String) : Option String :=
  match getSection cfg p with
  | none => none
  | some s => lookupOpt s.2 k

/-- Python truthiness of an optional string: `None` and `""` are falsy. -/
def pyTruthy (o : Option String) : Bool :=
  match o with
  | none => false
  | some s => s != ""

/-- Python `x or d` on an optional string. -/
def pyOr (o : Option String) (d : String) : String :=
  match o with
  | none => d
  | some s => if s == "" then d else s

/-- Python f-string interpolation of an optional string (`None` prints "None"). -/
def pyStr (o : Option String) : String :=
  match o with
  | none => "None"
  | some s => s

/-- Embedding of `load_profile` (outline_cli.py lines 80-85): return the pair
`(api_url, cert_sha256)` for the profile, or `(None, None)` when the profile
is not among the sections. -/
def load_profile (cfg : Config) (profile : String) : Option String × Option String :=
  if profile ∈ sections cfg then
    (getOption cfg profile "api_url", getOption cfg profile "cert_sha256")
  else
    (none, none)

/-- Embedding of `save_profile` (lines 88-97): add the section if absent, then set
`api_url` and `cert_sha256`, then write the file back. -/
def save_profile (cfg : Config) (profile api_url cert_sha256 : String) : Config :=
  let cfg1 := if profile ∈ sections cfg then cfg else cfg ++ [(profile, [])]
  setSection (setSection cfg1 profile "api_url" api_url) profile "cert_sha256" cert_sha256

/-- Embedding of `list_profiles` (lines 100-103): all section names. -/
def list_profiles (cfg : Config) : List String :=
  sections cfg

/-- Embedding of `remove_profile` (lines 106-114): `False` and no write when the profile is
absent; otherwise remove the section, write the file, and return `True`. -/
def remove_profile (cfg : Config) (profile : String) : Bool × Config :=
  if profile ∈ sections cfg then
    (true, cfg.filter (fun s => s.1 != profile))
  else
    (false, cfg)

/-- The on-disk world the config layer touches: `CONFIG_FILE` (`none` when the
file does not exist), the legacy `.env` file with its two variables
`OUTLINE_API_URL` and `OUTLINE_CERT_SHA256` (`none` when the file does not
exist; each variable `none` when unset), and whether the `dotenv` package can
be imported. -/
structure Store where
  configFile : Option Config
  envFile : Option (Option String × Option String)
  dotenvAvailable : Bool
  deriving DecidableEq

/-- Embedding of `get_config` (lines 72-77): parse `CONFIG_FILE` when it exists, else an
empty config. -/
def configOf (s : Store) : Config :=
  s.configFile.getD []

/-- Embedding of `migrate_from_env` (lines 49-69): when the legacy `.env` exists and
`CONFIG_FILE` does not, and `dotenv` imports, and both variables are truthy,
copy them into the `default` profile and report `True`; in every other case
report `False` and change nothing.  The `.env` file itself is never touched. -/
def migrate_from_env (s : Store) : Bool × Store :=
  match s.envFile with
  | none => (false, s)
  | some (api_url, cert_sha256) =>
    if s.configFile.isSome then (false, s)
    else if !s.dotenvAvailable then (false, s)
    else if pyTruthy api_url && pyTruthy cert_sha256 then
      (true, Store.mk
        (some (save_profile (configOf s) "default" (api_url.getD "") (cert_sha256.getD "")))
        s.envFile s.dotenvAvailable)
    else (false, s)

/-- Outcome of `get_client`: exit with status 1 after printing the given
lines, or run the interactive first-time setup prompt, or construct the
remote client from the loaded credentials. -/
inductive ClientResolution where
  | exitError (lines : List String)
  | setup
  | client (api_url cert_sha256 : String)
  deriving DecidableEq

/-- Embedding of `get_client` (lines 133-152): try the legacy migration, load the profile;
when either credential is falsy, either report the available profiles and
exit 1 (when any profile exists) or fall into interactive setup (when none
do). -/
def get_client (s : Store) (profile : String) : ClientResolution × Store :=
  let s1 := (migrate_from_env s).2
  let cfg := configOf s1
  let lp := load_profile cfg profile
  if pyTruthy lp.1 && pyTruthy lp.2 then
    (ClientResolution.client (lp.1.getD "") (lp.2.getD ""), s1)
  else if list_profiles cfg ≠ [] then
    (ClientResolution.exitError
      ["Error: Profile \x27" ++ profile ++ "\x27 not found",
       "Available profiles: " ++ String.intercalate ", " (list_profiles cfg)], s1)
  else
    (ClientResolution.setup, s1)

/-- Python `str.strip()` restricted to whitespace as Lean sees it. -/
def pyStrip (s : String) : String :=
  String.mk (((s.data.dropWhile Char.isWhitespace).reverse.dropWhile Char.isWhitespace).reverse)

/-- Python `str.lower()` (ASCII range, which covers the y/N prompt). -/
def pyLower (s : String) : String :=
  String.mk (s.data.map Char.toLower)

/-- Result of a profile subcommand: printed lines, process exit status
(0 models a plain return from `main`), and the resulting config store. -/
structure ProfileCmdResult where
  output : List String
  exit : Nat
  config : Config
  deriving DecidableEq

/-- Embedding of `cmd_profile_remove` (lines 301-316) with the interactive reply made an
explicit argument: missing profile exits 1; a confirmation whose stripped,
lowercased form is not `y` prints `Cancelled` and returns; otherwise the
profile is removed. -/
def cmd_profile_remove (cfg : Config) (name reply : String) : ProfileCmdResult :=
  if name ∉ list_profiles cfg then
    ProfileCmdResult.mk ["Profile \x27" ++ name ++ "\x27 not found"] 1 cfg
  else
    let confirm := pyLower (pyStrip reply)
    if confirm != "y" then
      ProfileCmdResult.mk ["Cancelled"] 0 cfg
    else
      let r := remove_profile cfg name
      if r.1 then
        ProfileCmdResult.mk ["Removed profile: " ++ name] 0 r.2
      else
        ProfileCmdResult.mk ["Failed to remove profile: " ++ name] 1 r.2

/-- An access key as returned by the remote client library; optional fields
model attributes that can be `None`. -/
structure Key where
  key_id : Nat
  name : Option String
  used_bytes : Option Nat
  access_url : Option String
  deriving DecidableEq

/-- The remote client abstraction (the wrapped `OutlineVPN` object): each
field gives the response the server would return to that call, with
`Except.error e` modelling a raised exception with message `e`. -/
structure Client where
  get_keys : Except String (List Key)
  create_key : Option String → Except String Key
  delete_key : Nat → Except String Bool
  rename_key : Nat → String → Except String Bool
  add_data_limit : Nat → Int → Except String Bool
  delete_data_limit : Nat → Except String Bool

/-- One call issued to the remote client, with its arguments. -/
inductive ClientCall where
  | getKeys
  | createKey (name : Option String)
  | deleteKey (id : Nat)
  | renameKey (id : Nat) (newName : String)
  | addDataLimit (id : Nat) (bytes : Int)
  | deleteDataLimit (id : Nat)
  deriving DecidableEq

/-- Result of a data command: printed lines, process exit status (0 models a
plain return from `main`), and the sequence of remote calls issued. -/
structure CmdResult where
  output : List String
  exit : Nat
  calls : List ClientCall
  deriving DecidableEq

/-- Python `f"{s:<n}"`: pad with spaces on the right to width `n`. -/
def padRight (s : String) (n : Nat) : String :=
  s ++ String.mk (List.replicate (n - s.length) ' ')

/-- Round a rational to the nearest integer, ties to even; this is how CPython
renders a binary float with `"%.1f"` (after scaling by 10), and the usage
values this CLI formats, `bytes / 2^20` with `bytes < 2^53`, are exact binary
floats. -/
def roundHalfEven (q : ℚ) : Int :=
  let f := ⌊q⌋
  let r := q - f
  if r < 1 / 2 then f
  else if 1 / 2 < r then f + 1
  else if f % 2 = 0 then f else f + 1

/-- Python `f"{q:.1f}"` for the nonnegative usage values this CLI displays. -/
def fmt1 (q : ℚ) : String :=
  let n := (roundHalfEven (q * 10)).toNat
  toString (n / 10) ++ "." ++ toString (n % 10)

/-- Python `int()` on a rational value: truncate toward zero. -/
def pyInt (q : ℚ) : Int :=
  if q < 0 then ⌈q⌉ else ⌊q⌋

/-- Python slice `s[:n]`. -/
def pySlice (s : String) (n : Nat) : String :=
  String.mk (s.data.take n)

/-- Name column of the list table (lines 180-181): names longer than 18
characters become their first 17 characters followed by the one-character
ellipsis. -/
def truncName (s : String) : String :=
  if 18 < s.length then pySlice s 17 ++ "…" else s

/-- URL column of the list table (lines 182-183): URLs longer than 40
characters become their first 37 characters followed by three dots. -/
def truncUrl (s : String) : String :=
  if 40 < s.length then pySlice s 37 ++ "..." else s

/-- One row of the `list` table (lines 171-185). -/
def listRow (k : Key) : String :=
  let name := pyOr k.name "(unnamed)"
  let usage_mb : ℚ := ((k.used_bytes.getD 0 : Nat) : ℚ) / (1024 * 1024)
  let access_url := pyOr k.access_url ""
  padRight (toString k.key_id) 6 ++ " " ++ padRight (truncName name) 20 ++ " " ++
    padRight (fmt1 usage_mb) 12 ++ " " ++ truncUrl access_url

/-- Header of the `list` table (lines 168-169). -/
def listHeader : List String :=
  [padRight "ID" 6 ++ " " ++ padRight "Name" 20 ++ " " ++ padRight "Usage (MB)" 12 ++ " Access URL",
   String.mk (List.replicate 80 '-')]

/-- Embedding of `cmd_list` (lines 155-185). -/
def cmd_list (client : Client) : CmdResult :=
  match client.get_keys with
  | Except.error e => CmdResult.mk ["Error: " ++ e] 1 [ClientCall.getKeys]
  | Except.ok keys =>
    if keys.isEmpty then
      CmdResult.mk ["No access keys found"] 0 [ClientCall.getKeys]
    else
      CmdResult.mk (listHeader ++ keys.map listRow) 0 [ClientCall.getKeys]

/-- The field-by-field view printed by `cmd_show` (lines 200-203). -/
def showLines (k : Key) : List String :=
  ["ID:         " ++ toString k.key_id,
   "Name:       " ++ pyOr k.name "(unnamed)",
   "Usage:      " ++ fmt1 (((k.used_bytes.getD 0 : Nat) : ℚ) / (1024 * 1024)) ++ " MB",
   "Access URL: " ++ pyStr k.access_url]

/-- Embedding of `cmd_show` (lines 188-208): one `get_keys` call, then a local search by
stringified id. -/
def cmd_show (client : Client) (key_id : Nat) : CmdResult :=
  match client.get_keys with
  | Except.error e => CmdResult.mk ["Error: " ++ e] 1 [ClientCall.getKeys]
  | Except.ok keys =>
    match keys.find? (fun k => toString k.key_id == toString key_id) with
    | none => CmdResult.mk ["Key not found: " ++ toString key_id] 1 [ClientCall.getKeys]
    | some k => CmdResult.mk (showLines k) 0 [ClientCall.getKeys]

/-- Embedding of `cmd_add` (lines 211-219): `create_key(name=name)` when the name is
truthy, else `create_key()`; note the error line says `Error creating key:`. -/
def cmd_add (client : Client) (name : Option String) : CmdResult :=
  let arg := if pyTruthy name then name else none
  match client.create_key arg with
  | Except.error e => CmdResult.mk ["Error creating key: " ++ e] 1 [ClientCall.createKey arg]
  | Except.ok key =>
    CmdResult.mk
      ["Created key: " ++ toString key.key_id ++ " - " ++ pyOr key.name "(unnamed)",
       "Access URL: " ++ pyStr key.access_url] 0 [ClientCall.createKey arg]

/-- Embedding of `cmd_delete` (lines 222-233). -/
def cmd_delete (client : Client) (key_id : Nat) : CmdResult :=
  match client.delete_key key_id with
  | Except.error e => CmdResult.mk ["Error: " ++ e] 1 [ClientCall.deleteKey key_id]
  | Except.ok true => CmdResult.mk ["Deleted key: " ++ toString key_id] 0 [ClientCall.deleteKey key_id]
  | Except.ok false => CmdResult.mk ["Failed to delete key: " ++ toString key_id] 1 [ClientCall.deleteKey key_id]

/-- Embedding of `cmd_rename` (lines 236-247). -/
def cmd_rename (client : Client) (key_id : Nat) (new_name : String) : CmdResult :=
  match client.rename_key key_id new_name with
  | Except.error e => CmdResult.mk ["Error: " ++ e] 1 [ClientCall.renameKey key_id new_name]
  | Except.ok true => CmdResult.mk ["Renamed key " ++ toString key_id ++ " to: " ++ new_name] 0 [ClientCall.renameKey key_id new_name]
  | Except.ok false => CmdResult.mk ["Failed to rename key: " ++ toString key_id] 1 [ClientCall.renameKey key_id new_name]

/-- Embedding of `cmd_limit` (lines 250-271): `mb == 0` clears the limit via
`delete_data_limit`; otherwise `int(mb * 1024 * 1024)` bytes are sent via
`add_data_limit`.  `mb` arrives through `argparse` as a float; every finite
float is a rational and the scaling by `2^20` is exact on floats, so the
argument is modelled as a rational and `int()` as truncation toward zero.
The success message renders the Python float `mb`; the rendering of the
number itself is abbreviated here to `toString` of the rational, which no
claim inspects. -/
def cmd_limit (client : Client) (key_id : Nat) (mb : ℚ) : CmdResult :=
  if mb = 0 then
    match client.delete_data_limit key_id with
    | Except.error e => CmdResult.mk ["Error: " ++ e] 1 [ClientCall.deleteDataLimit key_id]
    | Except.ok true => CmdResult.mk ["Removed limit for key " ++ toString key_id] 0 [ClientCall.deleteDataLimit key_id]
    | Except.ok false => CmdResult.mk ["Failed to remove limit for key: " ++ toString key_id] 1 [ClientCall.deleteDataLimit key_id]
  else
    let limit_bytes := pyInt (mb * (1024 * 1024))
    match client.add_data_limit key_id limit_bytes with
    | Except.error e => CmdResult.mk ["Error: " ++ e] 1 [ClientCall.addDataLimit key_id limit_bytes]
    | Except.ok true => CmdResult.mk ["Set limit for key " ++ toString key_id ++ ": " ++ toString mb ++ " MB"] 0 [ClientCall.addDataLimit key_id limit_bytes]
    | Except.ok false => CmdResult.mk ["Failed to set limit for key: " ++ toString key_id] 1 [ClientCall.addDataLimit key_id limit_bytes]

/-- The six data commands of `main` (lines 412-423), with their parsed
arguments. -/
inductive DataCmd where
  | list
  | show (key_id : Nat)
  | add (name : Option String)
  | delete (key_id : Nat)
  | rename (key_id : Nat) (new_name : String)
  | limit (key_id : Nat) (mb : ℚ)
  deriving DecidableEq

/-- Dispatch of `main` over the data commands. -/
def runData : DataCmd → Client → CmdResult
  | DataCmd.list, c => cmd_list c
  | DataCmd.show i, c => cmd_show c i
  | DataCmd.add n, c => cmd_add c n
  | DataCmd.delete i, c => cmd_delete c i
  | DataCmd.rename i n, c => cmd_rename c i n
  | DataCmd.limit i m, c => cmd_limit c i m

/-- A client whose every call raises an exception with message `e`. -/
def errClient (e : String) : Client :=
  Client.mk (Except.error e) (fun _ => Except.error e) (fun _ => Except.error e)
    (fun _ _ => Except.error e) (fun _ _ => Except.error e) (fun _ => Except.error e)

/-- The error line each data command actually prints when its remote call
raises `e`: `cmd_add` prefixes `Error creating key: `, every other data
command prefixes `Error: `. -/
def errLine (cmd : DataCmd) (e : String) : String :=
  match cmd with
  | DataCmd.add _ => "Error creating key: " ++ e
  | _ => "Error: " ++ e

/-- A key with 5 MiB of reported usage, for the display claims. -/
def demoKey : Key :=
  Key.mk 1 (some "alice") (some 5242880) (some "ss://demo")

/-- A client that serves exactly `demoKey` and fails everything else. -/
def demoClient : Client :=
  Client.mk (Except.ok [demoKey]) (fun _ => Except.error "x") (fun _ => Except.error "x")
    (fun _ _ => Except.error "x") (fun _ _ => Except.error "x") (fun _ => Except.error "x")

/-- A store with one configured profile `home`, no legacy file. -/
def demoStore : Store :=
  Store.mk (some [("home", [("api_url", "u"), ("cert_sha256", "c")])]) none true

/-- A store with no config file and a complete legacy `.env` file. -/
def legacyStore : Store :=
  Store.mk none (some (some "https://s:1/p", some "abcd")) true

/-- The one-profile config used by the concrete witnesses. -/
def demoConfig : Config :=
  [("home", [("api_url", "u"), ("cert_sha256", "c")])]

/-!
The definitions above model the in-memory dictionary layer of configparser.
The real `save_profile` and `load_profile` additionally round-trip through
the file: `config.write` serializes, a later `config.read` re-parses, and
`config.get` applies BasicInterpolation.  That pipeline is not the identity:
values are stripped of surrounding whitespace on re-read, a bare `%` in a
value makes `config.get` raise InterpolationSyntaxError (and `config.set`
itself rejects such values via `before_set`), `add_section` rejects the name
DEFAULT with ValueError, and section names the INI format cannot represent
(the empty name, names with a newline or a closing bracket) write a file a
later read fails to parse.  The definitions below model that pipeline: the
file as its list of physical lines, `ConfigParser.write`, the line parser of
`RawConfigParser._read` (section headers, option lines, continuation lines,
blank and comment lines, strict duplicate detection, multiline value
joining), `BasicInterpolation.before_get` and `before_set`, and the
file-level `save_profile_io` and `load_profile_io` built from them.
-/

/-- Python `str.rstrip()` restricted to whitespace as Lean sees it. -/
def pyStripRight (s : String) : String :=
  String.mk ((s.data.reverse.dropWhile Char.isWhitespace).reverse)

/-- Split a character list at newlines into the physical lines it spans. -/
def splitLinesList (cs : List Char) : List String :=
  cs.foldr
    (fun c acc =>
      match acc with
      | [] => [""]
      | h :: t => if c = '\n' then "" :: h :: t else (String.singleton c ++ h) :: t)
    [""]

/-- Physical lines of a string, as the file parser will see them. -/
def splitLines (s : String) : List String :=
  splitLinesList s.data

/-- Python `"\n".join(lines)`. -/
def joinNL : List String → String
  | [] => ""
  | [x] => x
  | x :: y :: t => x ++ "\n" ++ joinNL (y :: t)

/-- The exceptions of the configparser pipeline this CLI can hit: parse-time
errors of `config.read` (`ParsingError`, `MissingSectionHeaderError`,
`DuplicateSectionError`, `DuplicateOptionError`), the `ValueError` raised by
`add_section("DEFAULT")` and by `before_set` on an invalid interpolation
syntax, and the interpolation errors of `config.get`. -/
inductive ConfigError where
  | parsingError
  | missingSectionHeader
  | duplicateSection
  | duplicateOption
  | valueError
  | interpolationSyntax
  | interpolationMissingOption
  | interpolationDepth
  deriving DecidableEq

deriving instance DecidableEq for Except

/-- Lines `ConfigParser.write` emits for one option: `key = value`, with the
newlines of the value written as tab-indented continuation lines. -/
def writeOptionLines (kv : String × String) : List String :=
  match splitLines kv.2 with
  | [] => [kv.1 ++ " = "]
  | v0 :: rest => (kv.1 ++ " = " ++ v0) :: rest.map (fun l => "\t" ++ l)

/-- Lines `ConfigParser.write` emits for one section: the bracketed header,
the option lines, and a trailing blank line. -/
def writeSectionLines (name : String) (opts : OptionList) : List String :=
  ("[" ++ name ++ "]") :: (opts.map writeOptionLines).flatten ++ [""]

/-- `ConfigParser.write`: the DEFAULT section first when non-empty, then the
named sections in order. -/
def writeFile (defaults : OptionList) (cfg : Config) : List String :=
  (if defaults.isEmpty then [] else writeSectionLines "DEFAULT" defaults) ++
    (cfg.map (fun s => writeSectionLines s.1 s.2)).flatten

/-- A section while being read: option values are the lists of physical
lines collected for them, joined only at the end of the read. -/
structure RawSection where
  name : String
  opts : List (String × List String)

/-- State of `RawConfigParser._read` between lines. -/
structure ParseState where
  defaults : List (String × List String)
  defaultSeen : Bool
  done : List RawSection
  cur : Option RawSection
  optname : Option String
  indentLevel : Nat

/-- Indentation of a raw line, as the reader computes it. -/
def lineIndent (l : String) : Nat :=
  (l.data.takeWhile Char.isWhitespace).length

/-- Full-line comment test of the reader: the stripped line starts with
`#` or `;`. -/
def isCommentLine (l : String) : Bool :=
  match (pyStrip l).data with
  | c :: _ => c == '#' || c == ';'
  | [] => false

/-- SECTCRE `\[([^]]+)\]` matched at the start of the stripped line: the
header is everything up to the first closing bracket, which must exist and
be non-adjacent; trailing text is ignored. -/
def headerOf (value : String) : Option String :=
  match value.data with
  | c :: rest =>
    if c = '[' then
      let key := rest.takeWhile (fun x => x != ']')
      if key.isEmpty || key.length == rest.length then none else some (String.mk key)
    else none
  | [] => none

/-- OPTCRE split of a stripped option line at the first `=` or `:`; `none`
when the line has no delimiter. -/
def splitDelim (value : String) : Option (String × String) :=
  let pre := value.data.takeWhile (fun c => c != '=' && c != ':')
  if pre.length == value.data.length then none
  else some (String.mk pre, String.mk (value.data.drop (pre.length + 1)))

/-- Append one collected line to the value of option `k`. -/
def appendToOption (opts : List (String × List String)) (k : String) (line : String) :
    List (String × List String) :=
  opts.map (fun e => if e.1 == k then (e.1, e.2 ++ [line]) else e)

/-- Close the section being read: DEFAULT options go to the defaults, any
other section is appended to the finished list. -/
def flushState (st : ParseState) : ParseState :=
  match st.cur with
  | none => st
  | some c =>
    if c.name == "DEFAULT" then
      ParseState.mk (st.defaults ++ c.opts) st.defaultSeen st.done none st.optname st.indentLevel
    else
      ParseState.mk st.defaults st.defaultSeen (st.done ++ [c]) none st.optname st.indentLevel

/-- Reader action for a blank or comment-only line: a non-comment blank line
inside an option value records an empty value line, anything else is
skipped. -/
def blankLine (st : ParseState) (isComment : Bool) : ParseState :=
  match st.cur, st.optname with
  | some c, some o =>
    if isComment then st
    else
      ParseState.mk st.defaults st.defaultSeen st.done
        (some (RawSection.mk c.name (appendToOption c.opts o ""))) st.optname st.indentLevel
  | _, _ => st

/-- Continuation test of the reader: inside a section, after an option, and
indented deeper than that option line. -/
def isCont (st : ParseState) (curIndent : Nat) : Bool :=
  st.cur.isSome && st.optname.isSome && decide (st.indentLevel < curIndent)

/-- Append a continuation line to the current option value. -/
def appendCont (st : ParseState) (value : String) : ParseState :=
  match st.cur, st.optname with
  | some c, some o =>
    ParseState.mk st.defaults st.defaultSeen st.done
      (some (RawSection.mk c.name (appendToOption c.opts o value))) st.optname st.indentLevel
  | _, _ => st

/-- Reader action for a non-blank, non-continuation line: a section header
(with strict duplicate detection, DEFAULT routed to the defaults), an option
line `key = value` (key lowercased and right-stripped, value stripped,
strict duplicate detection), or a parse error.  An option line before any
header is MissingSectionHeaderError. -/
def mainLine (st : ParseState) (value : String) (curIndent : Nat) :
    Except ConfigError ParseState :=
  match headerOf value with
  | some h =>
    let fs := flushState st
    if h == "DEFAULT" then
      if st.defaultSeen then Except.error ConfigError.duplicateSection
      else
        Except.ok (ParseState.mk fs.defaults true fs.done
          (some (RawSection.mk h [])) none curIndent)
    else if (fs.done.map (fun s => s.name)).contains h then
      Except.error ConfigError.duplicateSection
    else
      Except.ok (ParseState.mk fs.defaults fs.defaultSeen fs.done
        (some (RawSection.mk h [])) none curIndent)
  | none =>
    match st.cur with
    | none => Except.error ConfigError.missingSectionHeader
    | some c =>
      match splitDelim value with
      | none => Except.error ConfigError.parsingError
      | some (optRaw, valRaw) =>
        let k := pyLower (pyStripRight optRaw)
        if k == "" then Except.error ConfigError.parsingError
        else if (c.opts.map (fun e => e.1)).contains k then
          Except.error ConfigError.duplicateOption
        else
          Except.ok (ParseState.mk st.defaults st.defaultSeen st.done
            (some (RawSection.mk c.name (c.opts ++ [(k, [pyStrip valRaw])])))
            (some k) curIndent)

/-- One line of `RawConfigParser._read`. -/
def parseStep (st : ParseState) (l : String) : Except ConfigError ParseState :=
  let isComment := isCommentLine l
  let value := if isComment then "" else pyStrip l
  if value == "" then Except.ok (blankLine st isComment)
  else
    let curIndent := lineIndent l
    if isCont st curIndent then Except.ok (appendCont st value)
    else mainLine st value curIndent

/-- All lines of `RawConfigParser._read`; the first error aborts (the real
reader raises duplicates at once and collected parse errors at the end, an
exception either way). -/
def parseLines : ParseState → List String → Except ConfigError ParseState
  | st, [] => Except.ok st
  | st, l :: rest =>
    match parseStep st l with
    | Except.error e => Except.error e
    | Except.ok st2 => parseLines st2 rest

/-- Start state of a read. -/
def initState : ParseState :=
  ParseState.mk [] false [] none none 0

/-- `_join_multiline_values`: collected value lines joined with newlines and
right-stripped. -/
def joinValue (lines : List String) : String :=
  pyStripRight (joinNL lines)

/-- A finished raw section with its values joined. -/
def joinRaw (rs : RawSection) : String × OptionList :=
  (rs.name, rs.opts.map (fun kv => (kv.1, joinValue kv.2)))

/-- `config.read` on the physical lines of a file: the DEFAULT options and
the named sections, or the first reading error. -/
def readConfig (file : List String) : Except ConfigError (OptionList × Config) :=
  match parseLines initState file with
  | Except.error e => Except.error e
  | Except.ok st =>
    let fs := flushState st
    Except.ok (fs.defaults.map (fun kv => (kv.1, joinValue kv.2)), fs.done.map joinRaw)

/-- Scanner mode of `BasicInterpolation._interpolate_some`. -/
inductive IMode where
  | normal
  | afterPercent
  | inKey (key : String)
  | afterKey (key : String)

/-- One character of the interpolation scan: `%%` emits `%`, `%(key)s`
resolves the reference, any other use of `%` is InterpolationSyntaxError. -/
def interpStep (resolve : String → Except ConfigError String)
    (acc : String × IMode) (c : Char) : Except ConfigError (String × IMode) :=
  match acc.2 with
  | IMode.normal =>
    if c = '%' then Except.ok (acc.1, IMode.afterPercent)
    else Except.ok (acc.1.push c, IMode.normal)
  | IMode.afterPercent =>
    if c = '%' then Except.ok (acc.1.push '%', IMode.normal)
    else if c = '(' then Except.ok (acc.1, IMode.inKey "")
    else Except.error ConfigError.interpolationSyntax
  | IMode.inKey k =>
    if c = ')' then
      if k == "" then Except.error ConfigError.interpolationSyntax
      else Except.ok (acc.1, IMode.afterKey k)
    else Except.ok (acc.1, IMode.inKey (k.push c))
  | IMode.afterKey k =>
    if c = 's' then (resolve k).map (fun v => (acc.1 ++ v, IMode.normal))
    else Except.error ConfigError.interpolationSyntax

/-- `MAX_INTERPOLATION_DEPTH` of configparser. -/
def maxInterpolationDepth : Nat := 10

/-- `BasicInterpolation._interpolate_some` with the remaining nesting depth
counted down: a resolved reference whose value contains `%` is interpolated
one level deeper, and exhausting the depth is InterpolationDepthError.  A
value ending inside an unfinished `%` sequence is InterpolationSyntaxError. -/
def interpolateDepth (mp : String → Option String) : Nat → String → Except ConfigError String
  | 0, _ => Except.error ConfigError.interpolationDepth
  | Nat.succ d, v =>
    let resolve := fun k =>
      match mp (pyLower k) with
      | none => Except.error ConfigError.interpolationMissingOption
      | some w =>
        if w.data.contains '%' then interpolateDepth mp d w else Except.ok w
    match v.data.foldlM (interpStep resolve) ("", IMode.normal) with
    | Except.error e => Except.error e
    | Except.ok (out, IMode.normal) => Except.ok out
    | Except.ok _ => Except.error ConfigError.interpolationSyntax

/-- `BasicInterpolation.before_get` on a raw value. -/
def interpolateValue (mp : String → Option String) (v : String) : Except ConfigError String :=
  interpolateDepth mp maxInterpolationDepth v

/-- Python `str.replace("%%", "")`: left-to-right, non-overlapping. -/
def dropPercentPairs : List Char → List Char
  | [] => []
  | [c] => [c]
  | c1 :: c2 :: rest =>
    if c1 = '%' ∧ c2 = '%' then dropPercentPairs rest
    else c1 :: dropPercentPairs (c2 :: rest)

/-- Scanner mode of the `before_set` validity check. -/
inductive BMode where
  | normal
  | afterPercent
  | inKey (seen : Bool)
  | afterKey

/-- One character of the `before_set` check, on the text with `%%` pairs
already removed: every remaining `%` must begin a full `%(key)s` reference. -/
def beforeSetStep (m : Option BMode) (c : Char) : Option BMode :=
  match m with
  | none => none
  | some BMode.normal => if c = '%' then some BMode.afterPercent else some BMode.normal
  | some BMode.afterPercent => if c = '(' then some (BMode.inKey false) else none
  | some (BMode.inKey seen) =>
    if c = ')' then (if seen then some BMode.afterKey else none) else some (BMode.inKey true)
  | some BMode.afterKey => if c = 's' then some BMode.normal else none

/-- `BasicInterpolation.before_set`: the value is accepted when, after
removing `%%` pairs and complete `%(key)s` references, no `%` remains. -/
def beforeSetOk (v : String) : Bool :=
  match (dropPercentPairs v.data).foldl beforeSetStep (some BMode.normal) with
  | some BMode.normal => true
  | _ => false

/-- `config.get(p, k, fallback=None)` after a read: the raw value from the
section (falling back to the DEFAULT options, then to `None`), passed
through BasicInterpolation with the section-then-defaults lookup map. -/
def config_get (cfg : Config) (defaults : OptionList) (p k : String) :
    Except ConfigError (Option String) :=
  let sectOpts := match getSection cfg p with | none => [] | some s => s.2
  let mp := fun key =>
    match lookupOpt sectOpts key with
    | some v => some v
    | none => lookupOpt defaults key
  match mp (pyLower k) with
  | none => Except.ok none
  | some v => (interpolateValue mp v).map some

/-- File-level `load_profile`: re-read the file (a read error is an uncaught
exception), then the two `config.get` calls with interpolation. -/
def load_profile_io (file : List String) (profile : String) :
    Except ConfigError (Option String × Option String) :=
  match readConfig file with
  | Except.error e => Except.error e
  | Except.ok (defaults, cfg) =>
    if profile ∈ sections cfg then
      match config_get cfg defaults profile "api_url" with
      | Except.error e => Except.error e
      | Except.ok u =>
        match config_get cfg defaults profile "cert_sha256" with
        | Except.error e => Except.error e
        | Except.ok c => Except.ok (u, c)
    else Except.ok (none, none)

/-- File-level `save_profile`: re-read the file, `add_section` (ValueError
on DEFAULT), the two `config.set` calls (`before_set` rejects values with a
stray `%`; an empty value skips the check), and `config.write` of the new
file. -/
def save_profile_io (file : List String) (profile api_url cert_sha256 : String) :
    Except ConfigError (List String) :=
  match readConfig file with
  | Except.error e => Except.error e
  | Except.ok (defaults, cfg) =>
    if profile ∉ sections cfg ∧ profile = "DEFAULT" then Except.error ConfigError.valueError
    else if api_url ≠ "" ∧ beforeSetOk api_url = false then Except.error ConfigError.valueError
    else if cert_sha256 ≠ "" ∧ beforeSetOk cert_sha256 = false then Except.error ConfigError.valueError
    else Except.ok (writeFile defaults (save_profile cfg profile api_url cert_sha256))

/-- First-character test used by the storable predicates. -/
def headOk (cs : List Char) (f : Char → Bool) : Bool :=
  match cs with
  | [] => true
  | c :: _ => f c

/-- Last-character test used by the storable predicates. -/
def lastOk (cs : List Char) (f : Char → Bool) : Bool :=
  headOk cs.reverse f

/-- A value the INI file stores verbatim: no surrounding whitespace, no
newline, no percent sign. -/
def goodValue (v : String) : Bool :=
  !v.data.contains '\n' && !v.data.contains '%' &&
    headOk v.data (fun c => !c.isWhitespace) && lastOk v.data (fun c => !c.isWhitespace)

/-- An option key the INI file stores verbatim: non-empty, already
lowercase, no newline and no delimiter, not starting like a header or a
comment, no surrounding whitespace. -/
def goodKey (k : String) : Bool :=
  !(k == "") && pyLower k == k &&
    !k.data.contains '\n' && !k.data.contains '=' && !k.data.contains ':' &&
    headOk k.data (fun c => !(c.isWhitespace || c == '[' || c == '#' || c == ';')) &&
    lastOk k.data (fun c => !c.isWhitespace)

/-- A section name the INI file stores verbatim: non-empty, not DEFAULT, no
newline, no closing bracket. -/
def goodName (p : String) : Bool :=
  !(p == "") && !(p == "DEFAULT") && !p.data.contains '\n' && !p.data.contains ']'

/-- Section bodies the file round trip preserves. -/
def storableOpts (opts : OptionList) : Prop :=
  (opts.map (fun e => e.1)).Nodup ∧ ∀ e ∈ opts, goodKey e.1 = true ∧ goodValue e.2 = true

/-- Configs the file round trip preserves. -/
def storableConfig (cfg : Config) : Prop :=
  (sections cfg).Nodup ∧ ∀ s ∈ cfg, goodName s.1 = true ∧ storableOpts s.2

/-- Key of the last option of a section body, as the reader tracks the
current option while collecting value lines. -/
def lastKey? (opts : OptionList) : Option String :=
  opts.foldl (fun _ kv => some kv.1) none

/-- The collected raw lines a written section body reads back as: each option
carries its single value line, and the blank separator line after the section
is recorded on the last option. -/
def rawBlock (opts : OptionList) : List (String × List String) :=
  match lastKey? opts with
  | none => []
  | some k => appendToOption (opts.map (fun kv => (kv.1, [kv.2]))) k ""

/-- The raw section a written section reads back as. -/
def rawSec (s : String × OptionList) : RawSection :=
  RawSection.mk s.1 (rawBlock s.2)

instance (opts : OptionList) : Decidable (storableOpts opts) := by
  unfold storableOpts
  infer_instance

instance (cfg : Config) : Decidable (storableConfig cfg) := by
  unfold storableConfig
  infer_instance


theorem sections_append (c1 c2 : Config) : sections (c1 ++ c2) = sections c1 ++ sections c2 := by
  simp [sections]

theorem mem_sections_cons (s : String × OptionList) (t : Config) (q : String)
    (hs : ¬ s.1 = q) (h : q ∈ sections (s :: t)) : q ∈ sections t := by
  simp only [sections, List.map_cons, List.mem_cons] at h
  rcases h with h | h
  · exact absurd h.symm hs
  · simpa [sections] using h

theorem sections_setSection (cfg : Config) (p k v : String) :
    sections (setSection cfg p k v) = sections cfg := by
  unfold sections setSection
  rw [List.map_map]
  have hfun : ((fun s : String × OptionList => s.1) ∘
      fun s => if s.1 == p then (s.1, setOption s.2 k v) else s) =
      fun s : String × OptionList => s.1 := by
    funext s
    by_cases h : (s.1 == p) = true <;> simp [Function.comp, h]
  rw [hfun]

theorem getSection_setSection_self (cfg : Config) (p k v : String) :
    getSection (setSection cfg p k v) p =
      (getSection cfg p).map (fun s => (s.1, setOption s.2 k v)) := by
  induction cfg with
  | nil => rfl
  | cons s t ih =>
    show List.find? (fun s => s.1 == p)
        ((if s.1 == p then (s.1, setOption s.2 k v) else s) :: setSection t p k v) =
      (List.find? (fun s => s.1 == p) (s :: t)).map (fun s => (s.1, setOption s.2 k v))
    by_cases h : (s.1 == p) = true
    · rw [if_pos h]
      simp only [List.find?_cons, h, cond_true]
      rfl
    · rw [if_neg h]
      simp only [List.find?_cons, h, cond_false]
      exact ih

theorem getSection_setSection_ne (cfg : Config) (p k v q : String) (hq : q ≠ p) :
    getSection (setSection cfg p k v) q = getSection cfg q := by
  induction cfg with
  | nil => rfl
  | cons s t ih =>
    show List.find? (fun s => s.1 == q)
        ((if s.1 == p then (s.1, setOption s.2 k v) else s) :: setSection t p k v) =
      List.find? (fun s => s.1 == q) (s :: t)
    by_cases h : (s.1 == p) = true
    · have hsq : (s.1 == q) = false := by
        rw [beq_eq_false_iff_ne]
        intro hx
        exact hq (hx.symm.trans (eq_of_beq h))
      rw [if_pos h]
      simp only [List.find?_cons, hsq, cond_false]
      exact ih
    · rw [if_neg h]
      by_cases h2 : (s.1 == q) = true
      · simp only [List.find?_cons, h2, cond_true]
      · simp only [List.find?_cons, eq_false_of_ne_true h2, cond_false]
        exact ih

theorem getSection_append_left (c1 c2 : Config) (q : String)
    (h : q ∈ sections c1) : getSection (c1 ++ c2) q = getSection c1 q := by
  induction c1 with
  | nil => simp [sections] at h
  | cons s t ih =>
    show List.find? (fun s => s.1 == q) (s :: (t ++ c2)) = List.find? (fun s => s.1 == q) (s :: t)
    by_cases hs : (s.1 == q) = true
    · simp only [List.find?_cons, hs, cond_true]
    · simp only [List.find?_cons, eq_false_of_ne_true hs, cond_false]
      exact ih (mem_sections_cons s t q (by simpa using hs) h)

theorem getSection_eq_some_of_mem (cfg : Config) (p : String) (h : p ∈ sections cfg) :
    ∃ opts, getSection cfg p = some (p, opts) := by
  induction cfg with
  | nil => simp [sections] at h
  | cons s t ih =>
    by_cases hs : (s.1 == p) = true
    · refine ⟨s.2, ?_⟩
      show List.find? (fun s => s.1 == p) (s :: t) = some (p, s.2)
      simp only [List.find?_cons, hs, cond_true]
      have : s = (p, s.2) := by
        obtain ⟨s1, s2⟩ := s
        simp only [Prod.mk.injEq]
        simpa using eq_of_beq hs
      rw [← this]
    · obtain ⟨opts, hopts⟩ := ih (mem_sections_cons s t p (by simpa using hs) h)
      refine ⟨opts, ?_⟩
      show List.find? (fun s => s.1 == p) (s :: t) = some (p, opts)
      simp only [List.find?_cons, eq_false_of_ne_true hs, cond_false]
      exact hopts

theorem find?_key_eq_none_of_not_any (opts : OptionList) (k : String)
    (hany : ¬ ((opts.any (fun e => e.1 == k)) = true)) :
    opts.find? (fun e => e.1 == k) = none := by
  rw [List.find?_eq_none]
  intro x hx hxk
  exact hany (List.any_eq_true.mpr ⟨x, hx, hxk⟩)

theorem lookupOpt_setOption_self (opts : OptionList) (k v : String) :
    lookupOpt (setOption opts k v) k = some v := by
  unfold setOption
  by_cases hany : (opts.any (fun e => e.1 == k)) = true
  · rw [if_pos hany]
    induction opts with
    | nil => simp at hany
    | cons e t ih =>
      rw [List.map_cons]
      by_cases he : (e.1 == k) = true
      · rw [if_pos he]
        unfold lookupOpt
        simp only [List.find?_cons, he, cond_true]
        rfl
      · rw [if_neg he]
        unfold lookupOpt
        simp only [List.find?_cons, eq_false_of_ne_true he, cond_false]
        have ht : (t.any (fun e => e.1 == k)) = true := by
          rcases List.any_eq_true.mp hany with ⟨x, hx, hxk⟩
          rcases List.mem_cons.mp hx with hx | hx
          · exact absurd (hx ▸ hxk) he
          · exact List.any_eq_true.mpr ⟨x, hx, hxk⟩
        exact ih ht
  · rw [if_neg hany]
    unfold lookupOpt
    rw [List.find?_append, find?_key_eq_none_of_not_any opts k hany]
    simp only [Option.none_or, List.find?_cons, beq_self_eq_true, cond_true]
    rfl

theorem lookupOpt_setOption_ne (opts : OptionList) (k v k2 : String) (h : k2 ≠ k) :
    lookupOpt (setOption opts k v) k2 = lookupOpt opts k2 := by
  unfold setOption
  by_cases hany : (opts.any (fun e => e.1 == k)) = true
  · rw [if_pos hany]
    clear hany
    induction opts with
    | nil => rfl
    | cons e t ih =>
      rw [List.map_cons]
      by_cases he : (e.1 == k) = true
      · have he2 : (e.1 == k2) = false := by
          rw [beq_eq_false_iff_ne]
          intro hx
          exact h (hx.symm.trans (eq_of_beq he))
        rw [if_pos he]
        unfold lookupOpt
        simp only [List.find?_cons, he2, cond_false]
        exact ih
      · rw [if_neg he]
        by_cases he2 : (e.1 == k2) = true
        · unfold lookupOpt
          simp only [List.find?_cons, he2, cond_true]
        · unfold lookupOpt
          simp only [List.find?_cons, eq_false_of_ne_true he2, cond_false]
          exact ih
  · rw [if_neg hany]
    unfold lookupOpt
    rw [List.find?_append]
    have hlast : List.find? (fun e => e.1 == k2) [(k, v)] = none := by
      have : ((k, v).1 == k2) = false := by
        rw [beq_eq_false_iff_ne]
        exact Ne.symm h
      simp only [List.find?_cons, this, cond_false, List.find?_nil]
    rw [hlast]
    cases hfind : List.find? (fun e => e.1 == k2) opts <;> rfl

theorem mem_sections_save (cfg : Config) (p u c r : String) (h : r ∈ sections cfg) :
    r ∈ sections (save_profile cfg p u c) := by
  unfold save_profile
  rw [sections_setSection, sections_setSection]
  by_cases hp : p ∈ sections cfg
  · rw [if_pos hp]
    exact h
  · rw [if_neg hp, sections_append]
    exact List.mem_append_left _ h

/-- In-memory layer: on the association-list model of the parser state,
saving a profile and then looking its two options up returns exactly the
saved pair of credentials. -/
theorem save_then_load_roundtrip (cfg : Config) (p u c : String) :
    load_profile (save_profile cfg p u c) p = (some u, some c) := by
  unfold save_profile load_profile
  set cfg1 := if p ∈ sections cfg then cfg else cfg ++ [(p, [])] with hcfg1
  have hpmem : p ∈ sections cfg1 := by
    by_cases h : p ∈ sections cfg
    · rw [hcfg1, if_pos h]
      exact h
    · rw [hcfg1, if_neg h, sections_append]
      simp [sections]
  have hmem2 : p ∈ sections (setSection (setSection cfg1 p "api_url" u) p "cert_sha256" c) := by
    rw [sections_setSection, sections_setSection]
    exact hpmem
  rw [if_pos hmem2]
  obtain ⟨opts, hopts⟩ := getSection_eq_some_of_mem cfg1 p hpmem
  have h1 : getSection (setSection (setSection cfg1 p "api_url" u) p "cert_sha256" c) p =
      some (p, setOption (setOption opts "api_url" u) "cert_sha256" c) := by
    rw [getSection_setSection_self, getSection_setSection_self, hopts]
    rfl
  unfold getOption
  rw [h1]
  have hu : lookupOpt (setOption (setOption opts "api_url" u) "cert_sha256" c) "api_url" = some u := by
    rw [lookupOpt_setOption_ne _ _ _ _ (by decide), lookupOpt_setOption_self]
  have hc : lookupOpt (setOption (setOption opts "api_url" u) "cert_sha256" c) "cert_sha256" = some c :=
    lookupOpt_setOption_self _ _ _
  exact Prod.ext_iff.mpr ⟨hu, hc⟩

/-- In-memory layer: on the association-list model of the parser state,
saving one profile leaves the lookup of any other stored profile unchanged
and keeps every previously listed profile name. -/
theorem save_profile_frame (cfg : Config) (p q u c : String) (hq : q ≠ p)
    (hmem : q ∈ list_profiles cfg) :
    load_profile (save_profile cfg p u c) q = load_profile cfg q ∧
      ∀ r ∈ list_profiles cfg, r ∈ list_profiles (save_profile cfg p u c) := by
  have hmem' : q ∈ sections cfg := hmem
  constructor
  · unfold save_profile load_profile
    set cfg1 := if p ∈ sections cfg then cfg else cfg ++ [(p, [])] with hcfg1
    have hq1 : q ∈ sections cfg1 := by
      by_cases h : p ∈ sections cfg
      · rw [hcfg1, if_pos h]
        exact hmem'
      · rw [hcfg1, if_neg h, sections_append]
        exact List.mem_append_left _ hmem'
    have hqset : q ∈ sections (setSection (setSection cfg1 p "api_url" u) p "cert_sha256" c) := by
      rw [sections_setSection, sections_setSection]
      exact hq1
    rw [if_pos hqset, if_pos hmem']
    have hsec : getSection (setSection (setSection cfg1 p "api_url" u) p "cert_sha256" c) q =
        getSection cfg q := by
      rw [getSection_setSection_ne _ _ _ _ _ hq, getSection_setSection_ne _ _ _ _ _ hq]
      by_cases h : p ∈ sections cfg
      · rw [hcfg1, if_pos h]
      · rw [hcfg1, if_neg h]
        exact getSection_append_left cfg [(p, [])] q hmem'
    unfold getOption
    rw [hsec]
  · intro r hr
    exact mem_sections_save cfg p u c r hr

/-- C6: removing a profile that is not stored reports failure and leaves the
store unchanged; removing a stored profile succeeds and the name no longer
appears in the subsequent profile listing. -/
theorem remove_profile_correct (cfg : Config) (p : String) :
    (p ∉ list_profiles cfg → remove_profile cfg p = (false, cfg)) ∧
      (p ∈ list_profiles cfg →
        (remove_profile cfg p).1 = true ∧ p ∉ list_profiles (remove_profile cfg p).2) := by
  constructor
  · intro h
    unfold list_profiles at h
    unfold remove_profile
    rw [if_neg h]
  · intro h
    unfold list_profiles at h
    unfold remove_profile
    rw [if_pos h]
    refine ⟨rfl, ?_⟩
    intro hmem
    unfold list_profiles sections at hmem
    rcases List.mem_map.mp hmem with ⟨s, hs, hfst⟩
    rcases List.mem_filter.mp hs with ⟨_, hpred⟩
    rw [hfst] at hpred
    simp at hpred

theorem remove_profile_correct_witness :
    remove_profile demoConfig "work" = (false, demoConfig) ∧
      ((remove_profile demoConfig "home").1 = true ∧
        "home" ∉ list_profiles (remove_profile demoConfig "home").2) :=
  ⟨(remove_profile_correct demoConfig "work").1 (by decide),
   (remove_profile_correct demoConfig "home").2 (by decide)⟩

theorem save_profile_frame_witness :
    load_profile (save_profile demoConfig "work" "u2" "c2") "home" = load_profile demoConfig "home" ∧
      "home" ∈ list_profiles (save_profile demoConfig "work" "u2" "c2") :=
  ⟨(save_profile_frame demoConfig "work" "home" "u2" "c2" (by decide) (by decide)).1,
   (save_profile_frame demoConfig "work" "home" "u2" "c2" (by decide) (by decide)).2 "home" (by decide)⟩

theorem migrate_noop (s : Store) (h : s.configFile.isSome ∨ s.envFile = none) :
    migrate_from_env s = (false, s) := by
  obtain ⟨cf, ef, da⟩ := s
  cases ef with
  | none => rfl
  | some pair =>
    obtain ⟨a, b⟩ := pair
    rcases h with h | h
    · simp only [migrate_from_env]
      rw [if_pos h]
    · exact absurd h (by simp)

theorem save_profile_empty (u c : String) :
    save_profile [] "default" u c = [("default", [("api_url", u), ("cert_sha256", c)])] := by
  unfold save_profile setSection setOption
  simp [sections, lookupOpt]

/-- C5: the legacy migration runs only when the structured config file is
absent and the legacy env file is present; when it runs it copies the legacy
credentials into the profile named default and leaves the legacy file in
place (the resulting store keeps the same envFile); and running migration
again after a successful migration is a no-op that reports False. -/
theorem migrate_from_env_correct (s : Store) (u c : String) :
    ((s.configFile.isSome ∨ s.envFile = none) → migrate_from_env s = (false, s)) ∧
    (s.configFile = none → s.dotenvAvailable = true → s.envFile = some (some u, some c) →
      u ≠ "" → c ≠ "" →
      migrate_from_env s = (true, Store.mk
        (some [("default", [("api_url", u), ("cert_sha256", c)])]) s.envFile s.dotenvAvailable)) ∧
    ((migrate_from_env s).1 = true →
      migrate_from_env (migrate_from_env s).2 = (false, (migrate_from_env s).2)) := by
  refine ⟨migrate_noop s, ?_, ?_⟩
  · intro hcf hda hef hu hc
    obtain ⟨cf, ef, da⟩ := s
    simp only at hcf hda hef
    subst hcf
    subst hda
    subst hef
    simp only [migrate_from_env]
    rw [if_neg (by simp), if_neg (by simp)]
    have hut : pyTruthy (some u) = true := by
      unfold pyTruthy
      exact bne_iff_ne.mpr hu
    have hct : pyTruthy (some c) = true := by
      unfold pyTruthy
      exact bne_iff_ne.mpr hc
    rw [if_pos (by rw [hut, hct]; rfl)]
    simp only [Option.getD_some, configOf]
    rw [show (Store.mk none (some (some u, some c)) true).configFile.getD [] = ([] : Config) from rfl]
    rw [save_profile_empty]
  · intro h
    apply migrate_noop
    left
    obtain ⟨cf, ef, da⟩ := s
    cases ef with
    | none => simp [migrate_from_env] at h
    | some pair =>
      obtain ⟨a, b⟩ := pair
      simp only [migrate_from_env] at h ⊢
      by_cases h1 : (Store.mk cf (some (a, b)) da).configFile.isSome
      · rw [if_pos h1] at h
        simp at h
      · rw [if_neg h1] at h ⊢
        by_cases h2 : (!(Store.mk cf (some (a, b)) da).dotenvAvailable) = true
        · rw [if_pos h2] at h
          simp at h
        · rw [if_neg h2] at h ⊢
          by_cases h3 : (pyTruthy a && pyTruthy b) = true
          · rw [if_pos h3]
            rfl
          · rw [if_neg h3] at h
            simp at h

theorem migrate_from_env_correct_witness :
    migrate_from_env legacyStore = (true, Store.mk
      (some [("default", [("api_url", "https://s:1/p"), ("cert_sha256", "abcd")])])
      legacyStore.envFile legacyStore.dotenvAvailable) ∧
    migrate_from_env (migrate_from_env legacyStore).2 = (false, (migrate_from_env legacyStore).2) :=
  ⟨(migrate_from_env_correct legacyStore "https://s:1/p" "abcd").2.1 rfl rfl rfl
      (by decide) (by decide),
   (migrate_from_env_correct legacyStore "https://s:1/p" "abcd").2.2 (by decide)⟩

/-- C2: when the stored credentials for the requested profile are missing
(no api_url or no cert after the migration attempt) but the profile list is
non-empty, resolving the client exits with status 1 after printing the
existing profile names, and the interactive first-time setup is reached only
when no profiles exist at all. -/
theorem get_client_missing_profile (s : Store) (p : String) :
    (((load_profile (configOf (migrate_from_env s).2) p).1 = none ∨
        (load_profile (configOf (migrate_from_env s).2) p).2 = none) →
      list_profiles (configOf (migrate_from_env s).2) ≠ [] →
      (get_client s p).1 = ClientResolution.exitError
        ["Error: Profile \x27" ++ p ++ "\x27 not found",
         "Available profiles: " ++
           String.intercalate ", " (list_profiles (configOf (migrate_from_env s).2))]) ∧
    ((get_client s p).1 = ClientResolution.setup →
      list_profiles (configOf (migrate_from_env s).2) = []) := by
  constructor
  · intro hmiss hne
    have hfalse : (pyTruthy (load_profile (configOf (migrate_from_env s).2) p).1 &&
        pyTruthy (load_profile (configOf (migrate_from_env s).2) p).2) = false := by
      rcases hmiss with h | h
      · rw [h]
        rfl
      · rw [h]
        simp [pyTruthy]
    simp only [get_client]
    rw [if_neg (by rw [hfalse]; simp), if_pos hne]
  · intro hsetup
    by_contra hne
    simp only [get_client] at hsetup
    by_cases h1 : (pyTruthy (load_profile (configOf (migrate_from_env s).2) p).1 &&
        pyTruthy (load_profile (configOf (migrate_from_env s).2) p).2) = true
    · rw [if_pos h1] at hsetup
      simp at hsetup
    · rw [if_neg h1, if_pos hne] at hsetup
      simp at hsetup

theorem get_client_missing_profile_witness :
    (get_client demoStore "work").1 = ClientResolution.exitError
      ["Error: Profile \x27work\x27 not found", "Available profiles: home"] := by
  have h := (get_client_missing_profile demoStore "work").1 (Or.inl (by decide)) (by decide)
  rw [h]
  rfl

/-- C10: the profile remove command on an existing profile asks for
confirmation; every reply whose stripped lowercased form is not exactly y
prints Cancelled, returns with exit status 0 and leaves the config store
unchanged, and the store can only change on a reply whose stripped
lowercased form is y. -/
theorem cmd_profile_remove_cancel (cfg : Config) (name reply : String)
    (hmem : name ∈ list_profiles cfg) :
    (pyLower (pyStrip reply) ≠ "y" →
      cmd_profile_remove cfg name reply = ProfileCmdResult.mk ["Cancelled"] 0 cfg) ∧
    ((cmd_profile_remove cfg name reply).config ≠ cfg → pyLower (pyStrip reply) = "y") := by
  have hnot : ¬ (name ∉ list_profiles cfg) := not_not_intro hmem
  constructor
  · intro hne
    unfold cmd_profile_remove
    rw [if_neg hnot, if_pos (bne_iff_ne.mpr hne)]
  · intro hchanged
    by_cases hy : pyLower (pyStrip reply) = "y"
    · exact hy
    · exfalso
      apply hchanged
      unfold cmd_profile_remove
      rw [if_neg hnot, if_pos (bne_iff_ne.mpr hy)]

theorem cmd_profile_remove_cancel_witness :
    cmd_profile_remove demoConfig "home" " N " = ProfileCmdResult.mk ["Cancelled"] 0 demoConfig :=
  (cmd_profile_remove_cancel demoConfig "home" " N " (by decide)).1 (by decide)

theorem pyInt_of_den_one (q : ℚ) (h : q.den = 1) : pyInt q = q.num := by
  have hq : (q.num : ℚ) = q := by
    have := Rat.num_div_den q
    rw [h] at this
    simpa using this
  unfold pyInt
  by_cases hlt : q < 0
  · rw [if_pos hlt]
    conv_lhs => rw [← hq]
    exact Int.ceil_intCast q.num
  · rw [if_neg hlt]
    conv_lhs => rw [← hq]
    exact Int.floor_intCast q.num

/-- C1 counterexample: with the nonzero command-line value mb = 2^-21 (an
exactly representable float), the limit command calls add_data_limit with 0
bytes, while mb times 1,048,576 is 1/2, so the bytes sent are not exactly mb
times 1,048,576. -/
theorem cmd_limit_exact_claim_cex :
    (cmd_limit (errClient "x") 1 (1 / 2097152)).calls = [ClientCall.addDataLimit 1 0] ∧
      ¬ (((0 : Int) : ℚ) = (1 / 2097152 : ℚ) * (1024 * 1024)) := by
  constructor
  · have hne : ¬ ((1 / 2097152 : ℚ) = 0) := by norm_num
    have hpy : pyInt ((1 / 2097152 : ℚ) * (1024 * 1024)) = 0 := by
      have h12 : ((1 / 2097152 : ℚ) * (1024 * 1024)) = 1 / 2 := by norm_num
      rw [h12]
      unfold pyInt
      rw [if_neg (by norm_num)]
      rw [Int.floor_eq_zero_iff]
      constructor <;> norm_num
    simp [cmd_limit, hne, errClient]
    simpa using hpy
  · norm_num

/-- C1 amended: mb = 0 issues exactly one delete_data_limit call; nonzero mb
issues exactly one add_data_limit call carrying int(mb * 1,048,576) bytes
(the product truncated toward zero), which equals exactly mb * 1,048,576
whenever that product is an integer; in particular `limit <id> 10` sends
exactly 10,485,760 bytes. -/
theorem cmd_limit_calls (client : Client) (id : Nat) (mb : ℚ) :
    (mb = 0 → (cmd_limit client id mb).calls = [ClientCall.deleteDataLimit id]) ∧
    (mb ≠ 0 → (cmd_limit client id mb).calls =
      [ClientCall.addDataLimit id (pyInt (mb * (1024 * 1024)))]) ∧
    (mb ≠ 0 → (mb * (1024 * 1024)).den = 1 → (cmd_limit client id mb).calls =
      [ClientCall.addDataLimit id (mb * (1024 * 1024)).num]) ∧
    (cmd_limit client id 10).calls = [ClientCall.addDataLimit id 10485760] := by
  have hzero : ∀ m : ℚ, m = 0 →
      (cmd_limit client id m).calls = [ClientCall.deleteDataLimit id] := by
    intro m hm
    cases hcall : client.delete_data_limit id with
    | error e => simp [cmd_limit, hm, hcall]
    | ok b => cases b <;> simp [cmd_limit, hm, hcall]
  have hnonzero : ∀ m : ℚ, m ≠ 0 → (cmd_limit client id m).calls =
      [ClientCall.addDataLimit id (pyInt (m * (1024 * 1024)))] := by
    intro m hm
    cases hcall : client.add_data_limit id (pyInt (m * (1024 * 1024))) with
    | error e => simp [cmd_limit, hm, hcall]
    | ok b => cases b <;> simp [cmd_limit, hm, hcall]
  refine ⟨hzero mb, hnonzero mb, ?_, ?_⟩
  · intro hm hden
    rw [hnonzero mb hm, pyInt_of_den_one _ hden]
  · rw [hnonzero 10 (by norm_num)]
    have h10 : pyInt ((10 : ℚ) * (1024 * 1024)) = 10485760 := by
      have h1 : ((10 : ℚ) * (1024 * 1024)) = ((10485760 : Int) : ℚ) := by norm_num
      rw [h1, pyInt_of_den_one _ (by norm_num)]
      norm_num
    rw [h10]

theorem cmd_limit_calls_witness :
    (cmd_limit (errClient "x") 7 0).calls = [ClientCall.deleteDataLimit 7] ∧
      (cmd_limit (errClient "x") 7 10).calls = [ClientCall.addDataLimit 7 10485760] :=
  ⟨(cmd_limit_calls (errClient "x") 7 0).1 rfl,
   (cmd_limit_calls (errClient "x") 7 10).2.2.2⟩

/-- C3 counterexample: when the remote create-key call raises `boom`, the add
command prints `Error creating key: boom`, which is not a line of the form
`Error: boom`. -/
theorem data_cmd_error_cex :
    (cmd_add (errClient "boom") (some "k")).output = ["Error creating key: boom"] ∧
      (cmd_add (errClient "boom") (some "k")).output ≠ ["Error: boom"] := by
  refine ⟨rfl, ?_⟩
  intro h
  exact absurd h (by decide)

/-- C3 amended: for every data command, when the remote call raises an
exception the command exits with status 1, issues exactly one remote call (no
retry), and prints exactly one error line: `Error: <message>` for list, show,
delete, rename and limit, and `Error creating key: <message>` for add. -/
theorem data_cmd_error_handling (cmd : DataCmd) (e : String) :
    (runData cmd (errClient e)).exit = 1 ∧
      (runData cmd (errClient e)).calls.length = 1 ∧
      (runData cmd (errClient e)).output = [errLine cmd e] := by
  have hlimit : ∀ (i : Nat) (m : ℚ), (cmd_limit (errClient e) i m).exit = 1 ∧
      (cmd_limit (errClient e) i m).calls.length = 1 ∧
      (cmd_limit (errClient e) i m).output = ["Error: " ++ e] := by
    intro i m
    by_cases hm : m = 0
    · simp [cmd_limit, hm, errClient]
    · simp [cmd_limit, hm, errClient]
  cases cmd
  case list => exact ⟨rfl, rfl, rfl⟩
  case delete i => exact ⟨rfl, rfl, rfl⟩
  case add n => exact ⟨rfl, rfl, rfl⟩
  case rename i n => exact ⟨rfl, rfl, rfl⟩
  case limit i m => exact hlimit i m
  all_goals exact ⟨rfl, rfl, rfl⟩

theorem fmt1_five_mb : fmt1 (((5242880 : Nat) : ℚ) / (1024 * 1024)) = "5.0" := by
  have h5 : ((5242880 : Nat) : ℚ) / (1024 * 1024) = ((5 : Int) : ℚ) := by norm_num
  have hrhe : roundHalfEven (((5 : Int) : ℚ) * 10) = 50 := by
    have h50 : ((5 : Int) : ℚ) * 10 = ((50 : Int) : ℚ) := by norm_num
    unfold roundHalfEven
    rw [h50, Int.floor_intCast]
    norm_num
  unfold fmt1
  rw [h5, hrhe]
  decide

/-- C7: a key with 5,242,880 reported bytes is displayed with usage 5.0 MB
(bytes divided by 1,048,576, rendered with one decimal place) in both the
list table row and the show view. -/
theorem usage_display_five_mb :
    (cmd_list demoClient).output =
      ["ID     Name                 Usage (MB)   Access URL",
       "--------------------------------------------------------------------------------",
       "1      alice                5.0          ss://demo"] ∧
    (cmd_show demoClient 1).output =
      ["ID:         1", "Name:       alice", "Usage:      5.0 MB", "Access URL: ss://demo"] := by
  have hrow : listRow demoKey = "1      alice                5.0          ss://demo" := by
    simp only [listRow, demoKey, pyOr, Option.getD]
    rw [fmt1_five_mb]
    decide
  have hshow : showLines demoKey =
      ["ID:         1", "Name:       alice", "Usage:      5.0 MB", "Access URL: ss://demo"] := by
    simp only [showLines, demoKey, pyOr, pyStr, Option.getD]
    rw [fmt1_five_mb]
    decide
  constructor
  · show (cmd_list demoClient).output = _
    simp only [cmd_list, demoClient]
    rw [if_neg (by decide)]
    show listHeader ++ [listRow demoKey] = _
    rw [hrow]
    decide
  · show (cmd_show demoClient 1).output = _
    simp only [cmd_show, demoClient]
    have hf : List.find? (fun k => toString k.key_id == toString (1 : Nat)) [demoKey] =
        some demoKey := rfl
    rw [hf]
    exact hshow

/-- C8: in the list table a name longer than 18 characters is replaced by its
first 17 characters followed by a trailing one-character ellipsis, an access
URL longer than 40 characters by its first 37 characters followed by a
trailing three-dot ellipsis, and a name or URL at or below its width is
printed unmodified. -/
theorem list_truncation (name url : String) :
    (name.length ≤ 18 → truncName name = name) ∧
    (18 < name.length → truncName name = pySlice name 17 ++ "…") ∧
    (url.length ≤ 40 → truncUrl url = url) ∧
    (40 < url.length → truncUrl url = pySlice url 37 ++ "...") := by
  refine ⟨?_, ?_, ?_, ?_⟩ <;> intro h
  · unfold truncName
    rw [if_neg (by omega)]
  · unfold truncName
    rw [if_pos h]
  · unfold truncUrl
    rw [if_neg (by omega)]
  · unfold truncUrl
    rw [if_pos h]

theorem list_truncation_witness :
    truncName "ab" = "ab" ∧
      truncName "abcdefghijklmnopqrs" = pySlice "abcdefghijklmnopqrs" 17 ++ "…" ∧
      truncUrl "ss://u" = "ss://u" ∧
      truncUrl "ss://0123456789012345678901234567890123456789" =
        pySlice "ss://0123456789012345678901234567890123456789" 37 ++ "..." :=
  ⟨(list_truncation "ab" "x").1 (by decide),
   (list_truncation "abcdefghijklmnopqrs" "x").2.1 (by decide),
   (list_truncation "x" "ss://u").2.2.1 (by decide),
   (list_truncation "x" "ss://0123456789012345678901234567890123456789").2.2.2 (by decide)⟩

theorem takeWhile_append_all (p : Char → Bool) (l1 l2 : List Char)
    (h : ∀ c ∈ l1, p c = true) :
    (l1 ++ l2).takeWhile p = l1 ++ l2.takeWhile p := by
  induction l1 with
  | nil => simp
  | cons c t ih =>
    rw [List.cons_append, List.takeWhile_cons, if_pos (h c (by simp))]
    rw [ih (fun x hx => h x (by simp [hx]))]
    rfl

theorem dropWhile_eq_self_of_head (p : Char → Bool) (cs : List Char)
    (h : headOk cs (fun c => !p c) = true) : cs.dropWhile p = cs := by
  cases cs with
  | nil => rfl
  | cons c t =>
    have hc : p c = false := by
      simp [headOk] at h
      exact h
    rw [List.dropWhile_cons, if_neg (by simp [hc])]

theorem headOk_append_left (a b : List Char) (f : Char → Bool) (ha : a ≠ []) :
    headOk (a ++ b) f = headOk a f := by
  cases a with
  | nil => exact absurd rfl ha
  | cons c t => rfl

theorem lastOk_append_right (a b : List Char) (f : Char → Bool) (hb : b ≠ []) :
    lastOk (a ++ b) f = lastOk b f := by
  unfold lastOk
  rw [List.reverse_append]
  apply headOk_append_left
  simpa using hb

theorem pyStrip_eq_self (s : String)
    (h1 : headOk s.data (fun c => !c.isWhitespace) = true)
    (h2 : lastOk s.data (fun c => !c.isWhitespace) = true) :
    pyStrip s = s := by
  unfold pyStrip
  rw [dropWhile_eq_self_of_head _ _ h1]
  rw [dropWhile_eq_self_of_head _ _ h2]
  first
  | rfl
  | rw [List.reverse_reverse]

theorem pyStripRight_eq_self (s : String)
    (h2 : lastOk s.data (fun c => !c.isWhitespace) = true) :
    pyStripRight s = s := by
  unfold pyStripRight
  rw [dropWhile_eq_self_of_head _ _ h2]
  first
  | rfl
  | rw [List.reverse_reverse]

theorem pyStripRight_append_newline (v : String)
    (h : lastOk v.data (fun c => !c.isWhitespace) = true) :
    pyStripRight (v ++ "\n") = v := by
  unfold pyStripRight
  rw [show (v ++ "\n").data = v.data ++ ['\n'] from rfl]
  rw [List.reverse_append]
  rw [show (['\n'].reverse ++ v.data.reverse) = '\n' :: v.data.reverse from rfl]
  rw [List.dropWhile_cons, if_pos (by decide)]
  rw [dropWhile_eq_self_of_head _ _ h]
  first
  | rfl
  | rw [List.reverse_reverse]

theorem data_ne_nil_of_ne_empty (s : String) (h : ¬ s = "") : s.data ≠ [] := by
  intro hd
  apply h
  cases s with
  | mk d =>
    simp at hd
    rw [hd]

theorem beq_empty_eq_false (s : String) (h : s.data ≠ []) : (s == "") = false := by
  rw [beq_eq_false_iff_ne]
  intro he
  rw [he] at h
  exact h rfl

theorem splitLinesList_no_newline (cs : List Char) (h : cs.contains '\n' = false) :
    splitLinesList cs = [String.mk cs] := by
  induction cs with
  | nil => rfl
  | cons c t ih =>
    have hmem : ¬ ('\n' = c ∨ '\n' ∈ t) := by
      intro hor
      simp at h
      rcases hor with h1 | h1
      · exact h.1 h1
      · exact h.2 h1
    have hc : ¬ c = '\n' := fun he => hmem (Or.inl he.symm)
    have ht : t.contains '\n' = false := by
      simp
      exact fun h1 => hmem (Or.inr h1)
    rw [show splitLinesList (c :: t) =
      (match splitLinesList t with
       | [] => [""]
       | h :: t2 => if c = '\n' then "" :: h :: t2 else (String.singleton c ++ h) :: t2) from rfl]
    rw [ih ht]
    rw [show (match [String.mk t] with
       | [] => [""]
       | h :: t2 => if c = '\n' then "" :: h :: t2 else (String.singleton c ++ h) :: t2) =
      if c = '\n' then "" :: [String.mk t] else [String.singleton c ++ String.mk t] from rfl]
    rw [if_neg hc]
    rfl

theorem writeOptionLines_no_newline (k v : String) (hv : v.data.contains '\n' = false) :
    writeOptionLines (k, v) = [k ++ " = " ++ v] := by
  unfold writeOptionLines splitLines
  rw [splitLinesList_no_newline _ hv]
  rfl

theorem goodValue_parts (v : String) (h : goodValue v = true) :
    v.data.contains '\n' = false ∧ v.data.contains '%' = false ∧
      headOk v.data (fun c => !c.isWhitespace) = true ∧
      lastOk v.data (fun c => !c.isWhitespace) = true := by
  unfold goodValue at h
  simp only [Bool.and_eq_true, Bool.not_eq_true'] at h
  exact ⟨h.1.1.1, h.1.1.2, h.1.2, h.2⟩

theorem goodKey_parts (k : String) (h : goodKey k = true) :
    ¬ k = "" ∧ pyLower k = k ∧ k.data.contains '\n' = false ∧
      k.data.contains '=' = false ∧ k.data.contains ':' = false ∧
      headOk k.data (fun c => !(c.isWhitespace || c == '[' || c == '#' || c == ';')) = true ∧
      lastOk k.data (fun c => !c.isWhitespace) = true := by
  unfold goodKey at h
  simp only [Bool.and_eq_true, Bool.not_eq_true', beq_iff_eq, beq_eq_false_iff_ne, ne_eq] at h
  exact ⟨h.1.1.1.1.1.1, h.1.1.1.1.1.2, h.1.1.1.1.2, h.1.1.1.2, h.1.1.2, h.1.2, h.2⟩

theorem goodName_parts (p : String) (h : goodName p = true) :
    ¬ p = "" ∧ ¬ p = "DEFAULT" ∧ p.data.contains '\n' = false ∧
      p.data.contains ']' = false := by
  unfold goodName at h
  simp only [Bool.and_eq_true, Bool.not_eq_true', beq_iff_eq, beq_eq_false_iff_ne, ne_eq] at h
  exact ⟨h.1.1.1, h.1.1.2, h.1.2, h.2⟩

theorem headerOf_eq_of_data (value : String) (c : Char) (rest : List Char)
    (h : value.data = c :: rest) :
    headerOf value = if c = '[' then
      (let key := rest.takeWhile (fun x => x != ']')
       if key.isEmpty || key.length == rest.length then none else some (String.mk key))
    else none := by
  unfold headerOf
  rw [h]

theorem head_char_of_goodKey (k : String) (hk : goodKey k = true) :
    ∃ c t, k.data = c :: t ∧ c.isWhitespace = false ∧ ¬ c = '[' ∧
      (c == '#') = false ∧ (c == ';') = false := by
  obtain ⟨hk0, _, _, _, _, hkhead, _⟩ := goodKey_parts k hk
  cases hkd : k.data with
  | nil => exact absurd hkd (data_ne_nil_of_ne_empty k hk0)
  | cons c t =>
    rw [hkd] at hkhead
    simp only [headOk, Bool.not_eq_true', Bool.or_eq_false_iff] at hkhead
    obtain ⟨⟨⟨h1, h2⟩, h3⟩, h4⟩ := hkhead
    refine ⟨c, t, rfl, h1, ?_, h3, h4⟩
    simpa using h2

theorem mainLine_option (df : List (String × List String)) (ds : Bool) (dn : List RawSection)
    (name : String) (curOpts : List (String × List String)) (opn : Option String)
    (il ci : Nat) (k v value : String) (w : List Char)
    (hk : goodKey k = true)
    (hval : value.data = k.data ++ ' ' :: '=' :: w)
    (hw : pyStrip (String.mk w) = v)
    (hdup : ((curOpts.map (fun e => e.1)).contains k) = false) :
    mainLine (ParseState.mk df ds dn (some (RawSection.mk name curOpts)) opn il) value ci =
      Except.ok (ParseState.mk df ds dn
        (some (RawSection.mk name (curOpts ++ [(k, [v])]))) (some k) ci) := by
  obtain ⟨hk0, hklow, hknl, hkeq, hkcol, hkhead, hklast⟩ := goodKey_parts k hk
  obtain ⟨c, t, hct, hcws, hclb, hch, hcs⟩ := head_char_of_goodKey k hk
  have hheader : headerOf value = none := by
    rw [headerOf_eq_of_data value c (t ++ ' ' :: '=' :: w)
      (by rw [hval, hct, List.cons_append])]
    rw [if_neg hclb]
  have hall : ∀ x ∈ k.data ++ [' '], (x != '=' && x != ':') = true := by
    intro x hx
    rcases List.mem_append.mp hx with hx | hx
    · have hne1 : ¬ x = '=' := by
        intro he
        rw [← he] at hkeq
        simp at hkeq
        exact hkeq hx
      have hne2 : ¬ x = ':' := by
        intro he
        rw [← he] at hkcol
        simp at hkcol
        exact hkcol hx
      simp [hne1, hne2]
    · have : x = ' ' := by simpa using hx
      rw [this]
      decide
  have hpre : value.data.takeWhile (fun x => x != '=' && x != ':') = k.data ++ [' '] := by
    rw [hval]
    rw [show k.data ++ ' ' :: '=' :: w = (k.data ++ [' ']) ++ '=' :: w by simp]
    rw [takeWhile_append_all _ _ _ hall]
    rw [List.takeWhile_cons, if_neg (by decide)]
    simp
  have hlen : ((k.data ++ [' ']).length == value.data.length) = false := by
    rw [beq_eq_false_iff_ne, hval]
    simp
  have hdrop : value.data.drop ((k.data ++ [' ']).length + 1) = w := by
    have h1 : (k.data ++ [' ']).length + 1 = (k.data ++ [' ', '=']).length := by simp
    rw [h1, hval, show k.data ++ ' ' :: '=' :: w = (k.data ++ [' ', '=']) ++ w by simp,
      List.drop_left]
  have hsplit : splitDelim value = some (String.mk (k.data ++ [' ']), String.mk w) := by
    unfold splitDelim
    simp only [hpre]
    rw [if_neg (by rw [hlen]; simp)]
    rw [hdrop]
  have hstripK : pyStripRight (String.mk (k.data ++ [' '])) = k := by
    unfold pyStripRight
    rw [show (String.mk (k.data ++ [' '])).data = k.data ++ [' '] from rfl]
    rw [List.reverse_append]
    rw [show ([' '].reverse ++ k.data.reverse) = ' ' :: k.data.reverse from rfl]
    rw [List.dropWhile_cons, if_pos (by decide)]
    rw [dropWhile_eq_self_of_head _ _ hklast]
    first
    | rfl
    | rw [List.reverse_reverse]
  have hkne : (k == "") = false :=
    beq_empty_eq_false k (data_ne_nil_of_ne_empty k hk0)
  unfold mainLine
  rw [hheader]
  simp only [hsplit, hstripK, hklow, hkne, hdup, hw]
  rfl

theorem pyStrip_space_cons (v : String)
    (h1 : headOk v.data (fun c => !c.isWhitespace) = true)
    (h2 : lastOk v.data (fun c => !c.isWhitespace) = true) :
    pyStrip (String.mk (' ' :: v.data)) = v := by
  unfold pyStrip
  rw [show (String.mk (' ' :: v.data)).data = ' ' :: v.data from rfl]
  rw [List.dropWhile_cons, if_pos (by decide)]
  rw [dropWhile_eq_self_of_head _ _ h1]
  rw [dropWhile_eq_self_of_head _ _ h2]
  first
  | rfl
  | rw [List.reverse_reverse]

theorem parseStep_option (df : List (String × List String)) (ds : Bool) (dn : List RawSection)
    (name : String) (curOpts : List (String × List String)) (opn : Option String)
    (k v : String)
    (hk : goodKey k = true) (hv : goodValue v = true)
    (hdup : ((curOpts.map (fun e => e.1)).contains k) = false) :
    parseStep (ParseState.mk df ds dn (some (RawSection.mk name curOpts)) opn 0)
        (k ++ " = " ++ v) =
      Except.ok (ParseState.mk df ds dn
        (some (RawSection.mk name (curOpts ++ [(k, [v])]))) (some k) 0) := by
  obtain ⟨hvnl, hvpc, hvhead, hvlast⟩ := goodValue_parts v hv
  obtain ⟨hk0, hklow, hknl, hkeq, hkcol, hkhead, hklast⟩ := goodKey_parts k hk
  obtain ⟨c, t, hct, hcws, hclb, hch, hcs⟩ := head_char_of_goodKey k hk
  have ldata : (k ++ " = " ++ v).data = k.data ++ ' ' :: '=' :: ' ' :: v.data := by
    show (k.data ++ [' ', '=', ' ']) ++ v.data = _
    simp
  have hindent : lineIndent (k ++ " = " ++ v) = 0 := by
    unfold lineIndent
    rw [ldata, hct, List.cons_append, List.takeWhile_cons, if_neg (by simp [hcws])]
    rfl
  by_cases hv0 : v = ""
  · subst hv0
    have ldata0 : (k ++ " = " ++ "").data = k.data ++ [' ', '=', ' '] := by
      rw [ldata]
    have hlead : List.dropWhile Char.isWhitespace (k.data ++ [' ', '=', ' ']) =
        k.data ++ [' ', '=', ' '] := by
      apply dropWhile_eq_self_of_head
      rw [hct, List.cons_append]
      simp [headOk, hcws]
    have hstrip : pyStrip (k ++ " = " ++ "") = String.mk (k.data ++ [' ', '=']) := by
      unfold pyStrip
      rw [ldata0, hlead]
      rw [show (k.data ++ [' ', '=', ' ']).reverse = ' ' :: '=' :: ' ' :: k.data.reverse by simp]
      rw [List.dropWhile_cons, if_pos (by decide)]
      rw [List.dropWhile_cons, if_neg (by decide)]
      simp
    have hcmt : isCommentLine (k ++ " = " ++ "") = false := by
      unfold isCommentLine
      rw [hstrip]
      rw [show (String.mk (k.data ++ [' ', '='])).data = k.data ++ [' ', '='] from rfl]
      rw [hct, List.cons_append]
      simp [hch, hcs]
    have hne : ((pyStrip (k ++ " = " ++ "")) == "") = false := by
      rw [hstrip]
      apply beq_empty_eq_false
      rw [show (String.mk (k.data ++ [' ', '='])).data = k.data ++ [' ', '='] from rfl, hct]
      simp
    unfold parseStep
    simp only [hcmt, Bool.false_eq_true, if_false, hne, hindent]
    have hcont : isCont (ParseState.mk df ds dn (some (RawSection.mk name curOpts)) opn 0) 0
        = false := by
      simp [isCont]
    simp only [hcont, Bool.false_eq_true, if_false]
    rw [hstrip]
    exact mainLine_option df ds dn name curOpts opn 0 0 k "" (String.mk (k.data ++ [' ', '='])) []
      hk (by rw [show (String.mk (k.data ++ [' ', '='])).data = k.data ++ [' ', '='] from rfl])
      rfl hdup
  · have hvne : v.data ≠ [] := data_ne_nil_of_ne_empty v hv0
    have hstrip : pyStrip (k ++ " = " ++ v) = k ++ " = " ++ v := by
      apply pyStrip_eq_self
      · rw [ldata, hct, List.cons_append]
        simp [headOk, hcws]
      · rw [show (k ++ " = " ++ v).data = (k.data ++ [' ', '=', ' ']) ++ v.data from rfl]
        rw [lastOk_append_right _ _ _ hvne]
        exact hvlast
    have hcmt : isCommentLine (k ++ " = " ++ v) = false := by
      unfold isCommentLine
      rw [hstrip]
      rw [ldata, hct, List.cons_append]
      simp [hch, hcs]
    have hne : ((pyStrip (k ++ " = " ++ v)) == "") = false := by
      rw [hstrip]
      apply beq_empty_eq_false
      rw [ldata, hct]
      simp
    unfold parseStep
    simp only [hcmt, Bool.false_eq_true, if_false, hne, hindent]
    have hcont : isCont (ParseState.mk df ds dn (some (RawSection.mk name curOpts)) opn 0) 0
        = false := by
      simp [isCont]
    simp only [hcont, Bool.false_eq_true, if_false]
    rw [hstrip]
    exact mainLine_option df ds dn name curOpts opn 0 0 k v (k ++ " = " ++ v) (' ' :: v.data)
      hk (by rw [ldata]) (pyStrip_space_cons v hvhead hvlast) hdup

theorem parseStep_header (st : ParseState) (hind : st.indentLevel = 0) (name : String)
    (hn : goodName name = true)
    (hdup : (((flushState st).done.map (fun s => s.name)).contains name) = false) :
    parseStep st ("[" ++ name ++ "]") =
      Except.ok (ParseState.mk (flushState st).defaults st.defaultSeen (flushState st).done
        (some (RawSection.mk name [])) none 0) := by
  obtain ⟨hn0, hnD, hnnl, hnrb⟩ := goodName_parts name hn
  have ldata : ("[" ++ name ++ "]").data = '[' :: (name.data ++ [']']) := by
    show ('[' :: name.data) ++ [']'] = _
    simp
  have hstrip : pyStrip ("[" ++ name ++ "]") = "[" ++ name ++ "]" := by
    apply pyStrip_eq_self
    · rw [ldata]
      simp [headOk]
    · rw [show ("[" ++ name ++ "]").data = ('[' :: name.data) ++ [']'] from rfl]
      rw [lastOk_append_right _ _ _ (by simp)]
      simp [lastOk, headOk]
  have hcmt : isCommentLine ("[" ++ name ++ "]") = false := by
    unfold isCommentLine
    rw [hstrip, ldata]
    simp
  have hne : ((pyStrip ("[" ++ name ++ "]")) == "") = false := by
    rw [hstrip]
    apply beq_empty_eq_false
    rw [ldata]
    simp
  have hindent : lineIndent ("[" ++ name ++ "]") = 0 := by
    unfold lineIndent
    rw [ldata, List.takeWhile_cons, if_neg (by decide)]
    rfl
  have hheader : headerOf ("[" ++ name ++ "]") = some name := by
    rw [headerOf_eq_of_data _ '[' (name.data ++ [']']) ldata]
    rw [if_pos rfl]
    have hkey : (name.data ++ [']']).takeWhile (fun x => x != ']') = name.data := by
      rw [takeWhile_append_all _ _ _ (by
        intro x hx
        have hne2 : ¬ x = ']' := by
          intro he
          rw [← he] at hnrb
          simp at hnrb
          exact hnrb hx
        simp [hne2])]
      rw [List.takeWhile_cons, if_neg (by decide)]
      simp
    simp only [hkey]
    rw [if_neg (by
      simp only [Bool.or_eq_true, not_or]
      constructor
      · simp [List.isEmpty_iff]
        exact data_ne_nil_of_ne_empty name hn0
      · simp)]
  have hflush : (flushState st).defaultSeen = st.defaultSeen := by
    unfold flushState
    cases st.cur with
    | none => rfl
    | some c =>
      by_cases hc : (c.name == "DEFAULT") = true <;> simp [hc]
  have hmain : mainLine st ("[" ++ name ++ "]") 0 =
      Except.ok (ParseState.mk (flushState st).defaults st.defaultSeen (flushState st).done
        (some (RawSection.mk name [])) none 0) := by
    unfold mainLine
    simp only [hheader]
    rw [show (name == "DEFAULT") = false from by
      rw [beq_eq_false_iff_ne]
      exact hnD]
    simp only [hdup, Bool.false_eq_true, if_false]
    rw [hflush]
  have hne2 : ((("[" ++ name ++ "]") : String) == "") = false := by
    apply beq_empty_eq_false
    rw [ldata]
    simp
  have hcont0 : isCont st 0 = false := by
    simp [isCont, hind]
  unfold parseStep
  simp only [hcmt, Bool.false_eq_true, if_false, hne, hne2, hcont0, hstrip, hindent]
  exact hmain

theorem parseStep_blank (st : ParseState) :
    parseStep st "" = Except.ok (blankLine st false) := rfl

theorem parseLines_append (st : ParseState) (l1 l2 : List String) :
    parseLines st (l1 ++ l2) =
      match parseLines st l1 with
      | Except.error e => Except.error e
      | Except.ok st2 => parseLines st2 l2 := by
  induction l1 generalizing st with
  | nil => rfl
  | cons l t ih =>
    rw [List.cons_append]
    show (match parseStep st l with
      | Except.error e => Except.error e
      | Except.ok st2 => parseLines st2 (t ++ l2)) = _
    rw [show parseLines st (l :: t) = (match parseStep st l with
      | Except.error e => Except.error e
      | Except.ok st2 => parseLines st2 t) from rfl]
    cases parseStep st l with
    | error e => rfl
    | ok st2 => exact ih st2

theorem parseLines_options (df : List (String × List String)) (ds : Bool) (dn : List RawSection)
    (name : String) (opts : OptionList) :
    ∀ (acc : List (String × List String)) (opn : Option String),
    (∀ e ∈ opts, goodKey e.1 = true ∧ goodValue e.2 = true) →
    ((acc.map (fun e => e.1) ++ opts.map (fun e => e.1)).Nodup) →
    parseLines (ParseState.mk df ds dn (some (RawSection.mk name acc)) opn 0)
        ((opts.map writeOptionLines).flatten) =
      Except.ok (ParseState.mk df ds dn
        (some (RawSection.mk name (acc ++ opts.map (fun kv => (kv.1, [kv.2])))))
        (opts.foldl (fun _ kv => some kv.1) opn) 0) := by
  induction opts with
  | nil =>
    intro acc opn hgood hnd
    simp [parseLines]
  | cons kv rest ih =>
    intro acc opn hgood hnd
    have hkv := hgood kv (by simp)
    have hline : writeOptionLines kv = [kv.1 ++ " = " ++ kv.2] := by
      obtain ⟨hnl, _, _, _⟩ := goodValue_parts kv.2 hkv.2
      exact writeOptionLines_no_newline kv.1 kv.2 hnl
    rw [List.map_cons, List.flatten_cons, hline]
    rw [show (([kv.1 ++ " = " ++ kv.2] ++ (rest.map writeOptionLines).flatten) : List String) =
      (kv.1 ++ " = " ++ kv.2) :: (rest.map writeOptionLines).flatten from rfl]
    have hnmem : kv.1 ∉ acc.map (fun e => e.1) := by
      intro hmem
      rw [List.map_cons] at hnd
      rcases List.nodup_append.mp hnd with ⟨_, _, hdisj⟩
      exact hdisj hmem (by simp)
    have hdup : ((acc.map (fun e => e.1)).contains kv.1) = false := by
      simp
      intro x hx
      exact hnmem (List.mem_map.mpr ⟨(kv.1, x), hx, rfl⟩)
    rw [show parseLines (ParseState.mk df ds dn (some (RawSection.mk name acc)) opn 0)
        ((kv.1 ++ " = " ++ kv.2) :: (rest.map writeOptionLines).flatten) =
      (match parseStep (ParseState.mk df ds dn (some (RawSection.mk name acc)) opn 0)
          (kv.1 ++ " = " ++ kv.2) with
        | Except.error e => Except.error e
        | Except.ok st2 => parseLines st2 ((rest.map writeOptionLines).flatten)) from rfl]
    rw [parseStep_option df ds dn name acc opn kv.1 kv.2 hkv.1 hkv.2 hdup]
    have hnd2 : (((acc ++ [(kv.1, [kv.2])]).map (fun e => e.1) ++
        rest.map (fun e => e.1)).Nodup) := by
      rw [List.map_append]
      rw [show (([(kv.1, [kv.2])].map (fun e => e.1)) : List String) = [kv.1] from rfl]
      rw [List.append_assoc]
      rw [show (([kv.1] ++ rest.map (fun e => e.1)) : List String) =
        kv.1 :: rest.map (fun e => e.1) from rfl]
      rw [List.map_cons] at hnd
      exact hnd
    rw [show (match (Except.ok (ParseState.mk df ds dn
        (some (RawSection.mk name (acc ++ [(kv.1, [kv.2])]))) (some kv.1) 0) :
          Except ConfigError ParseState) with
      | Except.error e => Except.error e
      | Except.ok st2 => parseLines st2 ((rest.map writeOptionLines).flatten)) =
      parseLines (ParseState.mk df ds dn
        (some (RawSection.mk name (acc ++ [(kv.1, [kv.2])]))) (some kv.1) 0)
        ((rest.map writeOptionLines).flatten) from rfl]
    rw [ih (acc ++ [(kv.1, [kv.2])]) (some kv.1)
      (fun e he => hgood e (by simp [he])) hnd2]
    simp [List.append_assoc]

theorem foldl_lastKey_some (opts : OptionList) (i : String) :
    ∃ j, opts.foldl (fun _ kv => some kv.1) (some i) = some j := by
  induction opts generalizing i with
  | nil => exact ⟨i, rfl⟩
  | cons kv rest ih => simpa using ih kv.1

theorem parseLines_section (st : ParseState) (hind : st.indentLevel = 0)
    (name : String) (opts : OptionList)
    (hn : goodName name = true) (ho : storableOpts opts)
    (hdup : (((flushState st).done.map (fun s => s.name)).contains name) = false) :
    parseLines st (writeSectionLines name opts) =
      Except.ok (ParseState.mk (flushState st).defaults st.defaultSeen (flushState st).done
        (some (RawSection.mk name (rawBlock opts))) (lastKey? opts) 0) := by
  unfold writeSectionLines
  rw [show (((("[" ++ name ++ "]") :: (opts.map writeOptionLines).flatten) ++ [""]) : List String) =
    ("[" ++ name ++ "]") :: ((opts.map writeOptionLines).flatten ++ [""]) from by simp]
  rw [show parseLines st (("[" ++ name ++ "]") :: ((opts.map writeOptionLines).flatten ++ [""])) =
    (match parseStep st ("[" ++ name ++ "]") with
     | Except.error e => Except.error e
     | Except.ok st2 => parseLines st2 ((opts.map writeOptionLines).flatten ++ [""])) from rfl]
  rw [parseStep_header st hind name hn hdup]
  rw [show (match (Except.ok (ParseState.mk (flushState st).defaults st.defaultSeen
      (flushState st).done (some (RawSection.mk name [])) none 0) :
        Except ConfigError ParseState) with
    | Except.error e => Except.error e
    | Except.ok st2 => parseLines st2 ((opts.map writeOptionLines).flatten ++ [""])) =
    parseLines (ParseState.mk (flushState st).defaults st.defaultSeen
      (flushState st).done (some (RawSection.mk name [])) none 0)
      ((opts.map writeOptionLines).flatten ++ [""]) from rfl]
  rw [parseLines_append]
  rw [parseLines_options (flushState st).defaults st.defaultSeen (flushState st).done
    name opts [] none ho.2 (by simpa using ho.1)]
  rw [show (match (Except.ok (ParseState.mk (flushState st).defaults st.defaultSeen
      (flushState st).done
      (some (RawSection.mk name ([] ++ opts.map (fun kv => (kv.1, [kv.2])))))
      (opts.foldl (fun _ kv => some kv.1) none) 0) :
        Except ConfigError ParseState) with
    | Except.error e => Except.error e
    | Except.ok st2 => parseLines st2 [""]) =
    parseLines (ParseState.mk (flushState st).defaults st.defaultSeen
      (flushState st).done
      (some (RawSection.mk name ([] ++ opts.map (fun kv => (kv.1, [kv.2])))))
      (opts.foldl (fun _ kv => some kv.1) none) 0) [""] from rfl]
  rw [show (([] ++ opts.map (fun kv => (kv.1, [kv.2]))) : List (String × List String)) =
    opts.map (fun kv => (kv.1, [kv.2])) from by simp]
  cases hop : opts with
  | nil =>
    rfl
  | cons kv rest =>
    obtain ⟨j, hj⟩ := foldl_lastKey_some rest kv.1
    rw [show ((kv :: rest).foldl (fun _ kv => some kv.1) (none : Option String)) =
      rest.foldl (fun _ kv => some kv.1) (some kv.1) from rfl]
    rw [hj]
    show Except.ok (blankLine _ false) = _
    unfold blankLine
    rw [show lastKey? (kv :: rest) = rest.foldl (fun _ kv => some kv.1) (some kv.1) from rfl]
    rw [hj]
    unfold rawBlock
    rw [show lastKey? (kv :: rest) = rest.foldl (fun _ kv => some kv.1) (some kv.1) from rfl]
    rw [hj]
    rfl

theorem parseLines_sections (cfg : Config) : ∀ (st : ParseState), st.indentLevel = 0 →
    (∀ s ∈ cfg, goodName s.1 = true ∧ storableOpts s.2) →
    ((((flushState st).done.map (fun s => s.name)) ++ sections cfg).Nodup) →
    ∃ stf, parseLines st ((cfg.map (fun s => writeSectionLines s.1 s.2)).flatten) =
        Except.ok stf ∧
      (flushState stf).defaults = (flushState st).defaults ∧
      (flushState stf).done = (flushState st).done ++ cfg.map rawSec := by
  induction cfg with
  | nil =>
    intro st hind hgood hnd
    exact ⟨st, by simp [parseLines], rfl, by simp⟩
  | cons sec rest ih =>
    intro st hind hgood hnd
    have hsec := hgood sec (by simp)
    have hsecD : ¬ sec.1 = "DEFAULT" := (goodName_parts sec.1 hsec.1).2.1
    have hdup : (((flushState st).done.map (fun s => s.name)).contains sec.1) = false := by
      have hnmem : sec.1 ∉ (flushState st).done.map (fun s => s.name) := by
        intro hmem
        rw [show sections (sec :: rest) = sec.1 :: sections rest from rfl] at hnd
        rcases List.nodup_append.mp hnd with ⟨_, _, hdisj⟩
        exact hdisj hmem (by simp)
      simp
      intro x hx hfst
      exact hnmem (List.mem_map.mpr ⟨x, hx, hfst⟩)
    rw [List.map_cons, List.flatten_cons]
    rw [parseLines_append]
    rw [parseLines_section st hind sec.1 sec.2 hsec.1 hsec.2 hdup]
    set st1 : ParseState := ParseState.mk (flushState st).defaults st.defaultSeen
      (flushState st).done (some (RawSection.mk sec.1 (rawBlock sec.2)))
      (lastKey? sec.2) 0 with hst1
    rw [show (match (Except.ok st1 : Except ConfigError ParseState) with
      | Except.error e => Except.error e
      | Except.ok st2 => parseLines st2 ((rest.map (fun s => writeSectionLines s.1 s.2)).flatten)) =
      parseLines st1 ((rest.map (fun s => writeSectionLines s.1 s.2)).flatten) from rfl]
    have hf1 : flushState st1 = ParseState.mk (flushState st).defaults st.defaultSeen
        ((flushState st).done ++ [RawSection.mk sec.1 (rawBlock sec.2)]) none
        (lastKey? sec.2) 0 := by
      rw [hst1]
      unfold flushState
      simp only [show ((sec.1 : String) == "DEFAULT") = false from by
        rw [beq_eq_false_iff_ne]
        exact hsecD, Bool.false_eq_true, if_false]
    have hnd1 : ((((flushState st1).done.map (fun s => s.name)) ++ sections rest).Nodup) := by
      rw [hf1]
      rw [show ((flushState st).done ++ [RawSection.mk sec.1 (rawBlock sec.2)]).map
          (fun s => s.name) =
        (flushState st).done.map (fun s => s.name) ++ [sec.1] from by simp]
      rw [List.append_assoc]
      rw [show (([sec.1] ++ sections rest) : List String) = sec.1 :: sections rest from rfl]
      rw [show sections (sec :: rest) = sec.1 :: sections rest from rfl] at hnd
      exact hnd
    obtain ⟨stf, hp, hdef, hdone⟩ := ih st1 rfl (fun s hs => hgood s (by simp [hs])) hnd1
    refine ⟨stf, hp, ?_, ?_⟩
    · rw [hdef, hf1]
    · rw [hdone, hf1]
      rw [show (ParseState.mk (flushState st).defaults st.defaultSeen
        ((flushState st).done ++ [RawSection.mk sec.1 (rawBlock sec.2)]) none
        (lastKey? sec.2) 0).done =
        (flushState st).done ++ [RawSection.mk sec.1 (rawBlock sec.2)] from rfl]
      rw [List.append_assoc]
      rfl

theorem joinValue_single (v : String) (hv : goodValue v = true) : joinValue [v] = v := by
  show pyStripRight (joinNL [v]) = v
  rw [show joinNL [v] = v from rfl]
  exact pyStripRight_eq_self v (goodValue_parts v hv).2.2.2

theorem joinValue_pair (v : String) (hv : goodValue v = true) : joinValue [v, ""] = v := by
  show pyStripRight (joinNL [v, ""]) = v
  rw [show joinNL [v, ""] = v ++ "\n" ++ "" from rfl]
  rw [show ((v ++ "\n" ++ "") : String) = v ++ "\n" from by
    show String.mk ((v.data ++ ['\n']) ++ []) = String.mk (v.data ++ ['\n'])
    simp]
  exact pyStripRight_append_newline v (goodValue_parts v hv).2.2.2

theorem foldl_lastKey_init (rest : OptionList) (h : rest ≠ []) (i i2 : Option String) :
    rest.foldl (fun _ kv => some kv.1) i = rest.foldl (fun _ kv => some kv.1) i2 := by
  cases rest with
  | nil => exact absurd rfl h
  | cons a t => rfl

theorem foldl_lastKey_mem2 (opts : OptionList) : ∀ (i : Option String) (j : String),
    opts.foldl (fun _ kv => some kv.1) i = some j → opts ≠ [] →
      j ∈ opts.map (fun e => e.1) := by
  induction opts with
  | nil =>
    intro i j _ hne
    exact absurd rfl hne
  | cons kv rest ih =>
    intro i j hj _
    cases hre : rest with
    | nil =>
      subst hre
      have hkj : kv.1 = j := by simpa using hj
      simp [hkj]
    | cons a t =>
      subst hre
      have hmem := ih (some kv.1) j hj (by simp)
      simp
      right
      simpa using hmem

theorem join_rawBlock (opts : OptionList) (ho : storableOpts opts) :
    (rawBlock opts).map (fun kv => (kv.1, joinValue kv.2)) = opts := by
  induction opts with
  | nil => rfl
  | cons kv rest ih =>
    have hkv := ho.2 kv (by simp)
    have horest : storableOpts rest := by
      constructor
      · have hnd := ho.1
        rw [show (((kv :: rest).map (fun e => e.1)) : List String) =
          kv.1 :: rest.map (fun e => e.1) from rfl] at hnd
        exact (List.nodup_cons.mp hnd).2
      · intro e he
        exact ho.2 e (by simp [he])
    by_cases hrne : rest = []
    · subst hrne
      show (appendToOption [(kv.1, [kv.2])] kv.1 "").map (fun kv => (kv.1, joinValue kv.2)) =
        [kv]
      unfold appendToOption
      simp only [List.map_cons, List.map_nil, beq_self_eq_true, if_true]
      rw [show (([kv.2] ++ [""]) : List String) = [kv.2, ""] from rfl]
      rw [joinValue_pair kv.2 hkv.2]
    · obtain ⟨j, hj⟩ := foldl_lastKey_some rest kv.1
      have hjrest : lastKey? rest = some j := by
        unfold lastKey?
        rw [foldl_lastKey_init rest hrne none (some kv.1)]
        exact hj
      have hjmem : j ∈ rest.map (fun e => e.1) := foldl_lastKey_mem2 rest (some kv.1) j hj hrne
      have hne : (kv.1 == j) = false := by
        rw [beq_eq_false_iff_ne]
        intro he
        have hnd := ho.1
        rw [show (((kv :: rest).map (fun e => e.1)) : List String) =
          kv.1 :: rest.map (fun e => e.1) from rfl] at hnd
        exact (List.nodup_cons.mp hnd).1 (he ▸ hjmem)
      have hraw : rawBlock (kv :: rest) =
          appendToOption ((kv :: rest).map (fun x => (x.1, [x.2]))) j "" := by
        unfold rawBlock
        rw [show lastKey? (kv :: rest) = rest.foldl (fun _ kv => some kv.1) (some kv.1) from rfl,
          hj]
      rw [hraw]
      rw [show ((appendToOption ((kv :: rest).map (fun x => (x.1, [x.2]))) j "") :
          List (String × List String)) =
        (if kv.1 == j then (kv.1, [kv.2] ++ [""]) else (kv.1, [kv.2])) ::
          appendToOption (rest.map (fun x => (x.1, [x.2]))) j "" from rfl]
      simp only [hne, Bool.false_eq_true, if_false]
      rw [List.map_cons]
      rw [joinValue_single kv.2 hkv.2]
      have htail : appendToOption (rest.map (fun x => (x.1, [x.2]))) j "" = rawBlock rest := by
        unfold rawBlock
        rw [hjrest]
      rw [htail, ih horest]

theorem readConfig_writeFile (cfg : Config) (h : storableConfig cfg) :
    readConfig (writeFile [] cfg) = Except.ok ([], cfg) := by
  have hfile : writeFile [] cfg = (cfg.map (fun s => writeSectionLines s.1 s.2)).flatten := rfl
  obtain ⟨stf, hp, hdef, hdone⟩ := parseLines_sections cfg initState rfl h.2 (by
    show ((((flushState initState).done.map (fun s => s.name)) ++ sections cfg).Nodup)
    rw [show (flushState initState).done = [] from rfl]
    simpa using h.1)
  unfold readConfig
  rw [hfile, hp]
  rw [show (flushState initState).defaults = [] from rfl] at hdef
  rw [show (flushState initState).done = [] from rfl] at hdone
  show Except.ok ((flushState stf).defaults.map (fun kv => (kv.1, joinValue kv.2)),
    (flushState stf).done.map joinRaw) = Except.ok (([] : OptionList), cfg)
  rw [hdef, hdone]
  rw [show (([] ++ cfg.map rawSec) : List RawSection) = cfg.map rawSec from by simp]
  rw [show (([] : List (String × List String)).map (fun kv => (kv.1, joinValue kv.2))) =
    ([] : OptionList) from rfl]
  have hjoin : (cfg.map rawSec).map joinRaw = cfg := by
    rw [List.map_map]
    have hcongr : ∀ s ∈ cfg, (joinRaw ∘ rawSec) s = s := by
      intro s hs
      show joinRaw (rawSec s) = s
      unfold joinRaw rawSec
      rw [show (RawSection.mk s.1 (rawBlock s.2)).name = s.1 from rfl]
      rw [show (RawSection.mk s.1 (rawBlock s.2)).opts = rawBlock s.2 from rfl]
      rw [join_rawBlock s.2 (h.2 s hs).2]
    rw [List.map_congr_left hcongr]
    simp
  rw [hjoin]

theorem storableOpts_setOption (opts : OptionList) (k v : String)
    (ho : storableOpts opts) (hk : goodKey k = true) (hv : goodValue v = true) :
    storableOpts (setOption opts k v) := by
  unfold setOption
  by_cases hany : (opts.any (fun e => e.1 == k)) = true
  · rw [if_pos hany]
    constructor
    · have hkeys : ((opts.map (fun e => if e.1 == k then (e.1, v) else e)).map
          (fun e => e.1)) = opts.map (fun e => e.1) := by
        rw [List.map_map]
        apply List.map_congr_left
        intro e _
        show (if e.1 == k then (e.1, v) else e).1 = e.1
        by_cases h : (e.1 == k) = true
        · rw [if_pos h]
        · rw [if_neg h]
      rw [hkeys]
      exact ho.1
    · intro e he
      rcases List.mem_map.mp he with ⟨x, hx, hfe⟩
      by_cases h : (x.1 == k) = true
      · rw [if_pos h] at hfe
        rw [← hfe]
        exact ⟨(ho.2 x hx).1, hv⟩
      · rw [if_neg h] at hfe
        rw [← hfe]
        exact ho.2 x hx
  · rw [if_neg hany]
    constructor
    · rw [List.map_append]
      rw [show (([(k, v)].map (fun e => e.1)) : List String) = [k] from rfl]
      rw [List.nodup_append]
      refine ⟨ho.1, by simp, ?_⟩
      intro a ha hb
      simp at hb
      subst hb
      rcases List.mem_map.mp ha with ⟨x, hx, hfx⟩
      apply hany
      exact List.any_eq_true.mpr ⟨x, hx, by simp [hfx]⟩
    · intro e he
      rcases List.mem_append.mp he with he | he
      · exact ho.2 e he
      · have : e = (k, v) := by simpa using he
        rw [this]
        exact ⟨hk, hv⟩

theorem storableConfig_save (cfg : Config) (p u c : String) (hcfg : storableConfig cfg)
    (hp : goodName p = true) (hu : goodValue u = true) (hc : goodValue c = true) :
    storableConfig (save_profile cfg p u c) := by
  have hapi : goodKey "api_url" = true := by decide
  have hcert : goodKey "cert_sha256" = true := by decide
  have hset : ∀ (c2 : Config) (k v : String), storableConfig c2 → goodKey k = true →
      goodValue v = true → storableConfig (setSection c2 p k v) := by
    intro c2 k v h2 hk hv
    constructor
    · rw [sections_setSection]
      exact h2.1
    · intro s hs
      rcases List.mem_map.mp hs with ⟨x, hx, hfx⟩
      by_cases hxp : (x.1 == p) = true
      · rw [if_pos hxp] at hfx
        rw [← hfx]
        exact ⟨(h2.2 x hx).1, storableOpts_setOption x.2 k v (h2.2 x hx).2 hk hv⟩
      · rw [if_neg hxp] at hfx
        rw [← hfx]
        exact h2.2 x hx
  unfold save_profile
  set cfg1 := if p ∈ sections cfg then cfg else cfg ++ [(p, [])] with hcfg1
  have hstor1 : storableConfig cfg1 := by
    by_cases h : p ∈ sections cfg
    · rw [hcfg1, if_pos h]
      exact hcfg
    · rw [hcfg1, if_neg h]
      constructor
      · rw [sections_append]
        rw [show sections [(p, [])] = [p] from rfl]
        rw [List.nodup_append]
        refine ⟨hcfg.1, by simp, ?_⟩
        intro a ha hb
        simp at hb
        subst hb
        exact h ha
      · intro s hs
        rcases List.mem_append.mp hs with hs | hs
        · exact hcfg.2 s hs
        · have : s = (p, []) := by simpa using hs
          rw [this]
          refine ⟨hp, by simp, ?_⟩
          intro e he
          simp at he
  exact hset _ "cert_sha256" c (hset cfg1 "api_url" u hstor1 hapi hu) hcert hc

theorem foldlM_interp_no_percent (resolve : String → Except ConfigError String)
    (cs : List Char) : ∀ (out : String), cs.contains '%' = false →
    List.foldlM (interpStep resolve) (out, IMode.normal) cs =
      Except.ok (out ++ String.mk cs, IMode.normal) := by
  induction cs with
  | nil =>
    intro out _
    show Except.ok (out, IMode.normal) =
      Except.ok (out ++ String.mk [], IMode.normal)
    rw [show out ++ String.mk [] = out from by
      show String.mk (out.data ++ []) = out
      simp]
  | cons c t ih =>
    intro out h
    simp only [List.contains_cons, Bool.or_eq_false_iff, beq_eq_false_iff_ne, ne_eq] at h
    have hc : ¬ c = '%' := fun he => h.1 he.symm
    have ht : t.contains '%' = false := h.2
    rw [List.foldlM_cons]
    rw [show interpStep resolve (out, IMode.normal) c =
        Except.ok (out.push c, IMode.normal) from by
      unfold interpStep
      rw [if_neg hc]]
    rw [show ((Except.ok (out.push c, IMode.normal) :
        Except ConfigError (String × IMode)) >>=
        fun b2 => List.foldlM (interpStep resolve) b2 t) =
      List.foldlM (interpStep resolve) (out.push c, IMode.normal) t from rfl]
    rw [ih (out.push c) ht]
    rw [show out.push c ++ String.mk t = out ++ String.mk (c :: t) from by
      show String.mk ((out.data ++ [c]) ++ t) = String.mk (out.data ++ (c :: t))
      simp]

theorem interpolateDepth_no_percent (mp : String → Option String) (d : Nat) (v : String)
    (h : v.data.contains '%' = false) :
    interpolateDepth mp (d + 1) v = Except.ok v := by
  show (match v.data.foldlM
      (interpStep fun k =>
        match mp (pyLower k) with
        | none => Except.error ConfigError.interpolationMissingOption
        | some w =>
          if w.data.contains '%' then interpolateDepth mp d w else Except.ok w)
      ("", IMode.normal) with
    | Except.error e => Except.error e
    | Except.ok (out, IMode.normal) => Except.ok out
    | Except.ok _ => Except.error ConfigError.interpolationSyntax) = Except.ok v
  rw [foldlM_interp_no_percent _ v.data "" h]
  show Except.ok ("" ++ String.mk v.data) = Except.ok v
  rw [show ("" ++ String.mk v.data) = v from by
    show String.mk ([] ++ v.data) = v
    simp]

theorem interpolateValue_no_percent (mp : String → Option String) (v : String)
    (h : v.data.contains '%' = false) :
    interpolateValue mp v = Except.ok v :=
  interpolateDepth_no_percent mp 9 v h

theorem config_get_some (cfg : Config) (defaults : OptionList) (p k : String)
    (sec : String × OptionList) (hsec : getSection cfg p = some sec)
    (v : String) (hv : lookupOpt sec.2 (pyLower k) = some v)
    (hpc : v.data.contains '%' = false) :
    config_get cfg defaults p k = Except.ok (some v) := by
  unfold config_get
  simp only [hsec]
  show (match (match lookupOpt sec.2 (pyLower k) with
      | some w => some w
      | none => lookupOpt defaults (pyLower k)) with
    | none => Except.ok none
    | some w => (interpolateValue (fun key =>
        match lookupOpt sec.2 key with
        | some w2 => some w2
        | none => lookupOpt defaults key) w).map some) = Except.ok (some v)
  rw [hv]
  show (interpolateValue (fun key =>
      match lookupOpt sec.2 key with
      | some w2 => some w2
      | none => lookupOpt defaults key) v).map some = Except.ok (some v)
  rw [interpolateValue_no_percent _ v hpc]
  rfl

theorem config_get_congr (cfg cfg2 : Config) (defaults : OptionList) (p k : String)
    (h : getSection cfg2 p = getSection cfg p) :
    config_get cfg2 defaults p k = config_get cfg defaults p k := by
  unfold config_get
  rw [h]

theorem dropPercentPairs_no_percent : ∀ (cs : List Char), cs.contains '%' = false →
    dropPercentPairs cs = cs := by
  intro cs
  induction cs with
  | nil => intro _; rfl
  | cons c t ih =>
    intro h
    simp only [List.contains_cons, Bool.or_eq_false_iff, beq_eq_false_iff_ne, ne_eq] at h
    have hc : ¬ c = '%' := fun he => h.1 he.symm
    cases t with
    | nil => rfl
    | cons c2 t2 =>
      rw [show dropPercentPairs (c :: c2 :: t2) =
          (if c = '%' ∧ c2 = '%' then dropPercentPairs t2
          else c :: dropPercentPairs (c2 :: t2)) from rfl]
      rw [if_neg (fun hand => hc hand.1)]
      rw [ih h.2]

theorem foldl_beforeSet_no_percent (cs : List Char) (h : cs.contains '%' = false) :
    cs.foldl beforeSetStep (some BMode.normal) = some BMode.normal := by
  induction cs with
  | nil => rfl
  | cons c t ih =>
    simp only [List.contains_cons, Bool.or_eq_false_iff, beq_eq_false_iff_ne, ne_eq] at h
    have hc : ¬ c = '%' := fun he => h.1 he.symm
    rw [List.foldl_cons]
    rw [show beforeSetStep (some BMode.normal) c = some BMode.normal from by
      unfold beforeSetStep
      rw [if_neg hc]]
    exact ih h.2

theorem beforeSetOk_no_percent (v : String) (h : v.data.contains '%' = false) :
    beforeSetOk v = true := by
  unfold beforeSetOk
  rw [dropPercentPairs_no_percent v.data h, foldl_beforeSet_no_percent v.data h]

theorem mem_sections_save_self (cfg : Config) (p u c : String) :
    p ∈ sections (save_profile cfg p u c) := by
  unfold save_profile
  rw [sections_setSection, sections_setSection]
  by_cases h : p ∈ sections cfg
  · rw [if_pos h]
    exact h
  · rw [if_neg h, sections_append]
    exact List.mem_append_right _ (by simp [sections])

theorem getSection_save_ne (cfg : Config) (p u c q : String) (hq : q ≠ p)
    (hqm : q ∈ sections cfg) :
    getSection (save_profile cfg p u c) q = getSection cfg q := by
  unfold save_profile
  rw [getSection_setSection_ne _ _ _ _ _ hq, getSection_setSection_ne _ _ _ _ _ hq]
  by_cases h : p ∈ sections cfg
  · rw [if_pos h]
  · rw [if_neg h]
    exact getSection_append_left cfg [(p, [])] q hqm

theorem load_profile_io_of_read (file : List String) (defaults : OptionList)
    (cfg : Config) (h : readConfig file = Except.ok (defaults, cfg))
    (profile : String) :
    load_profile_io file profile =
      (if profile ∈ sections cfg then
        match config_get cfg defaults profile "api_url" with
        | Except.error e => Except.error e
        | Except.ok u =>
          match config_get cfg defaults profile "cert_sha256" with
          | Except.error e => Except.error e
          | Except.ok c => Except.ok (u, c)
      else Except.ok (none, none)) := by
  unfold load_profile_io
  rw [h]

